import Mathlib

/- Shallow embedding of src/newclasses.py (the Baka-Bot Mafia game engine).

   Python object identity is modelled explicitly: Player objects live in a
   heap (pheap) indexed by PlayerId, and the two Python list objects that
   the game can alias (self.players and self.alive) live in a heap of lists
   (the lists field) addressed by ListRef, so that the assignment
   self.alive = self.players in give_roles is reference sharing, exactly as
   in CPython.  Dictionaries (vote_table, user_to_player) are association
   lists; each is rebound to a fresh object wherever the source rebinds it
   and is never aliased to another field, so value semantics is faithful
   for them.  Messages sent through client.send_message and calls to
   asyncio.sleep are collected in an event trace. -/

namespace BakaBot

abbrev PlayerId := Nat
abbrev ListRef := Nat

/-- A discord.User as the source observes it: only .id and .name are read. -/
structure DUser where
  uid : Nat
  uname : String
deriving DecidableEq

instance : Inhabited DUser := ⟨⟨0, ""⟩⟩

/-- Player (newclasses.py lines 61-82).  The role field stores the role_name
string of the assigned AbstractRole object (MafiaRole built by give_roles has
role_name "Mafia " + "" = "Mafia ", TownRole has "Townie"); None before
assignment. -/
structure PObj where
  uid : Nat
  uname : String
  role : Option String
  is_alive : Bool
  votes_for : Option PlayerId
  is_no_lynch : Bool
deriving DecidableEq

instance : Inhabited PObj := ⟨⟨0, "", none, false, none, false⟩⟩

/-- Destination of a client.send_message call: the current value of the
gen_channel field, or a direct message to a discord user. -/
inductive Dest where
  | channel (c : Option Nat)
  | user (uid : Nat)
deriving DecidableEq

/-- Observable effects of the engine: messages sent and asyncio.sleep. -/
inductive Event where
  | msg (d : Dest) (s : String)
  | sleep (secs : Int)
deriving DecidableEq

/-- A discord.Message as the source consumes it: author, content split on
single spaces (message.content.split), the mention list, and the channel it
arrived on. -/
structure Msg where
  author : DUser
  content_args : List String
  mentions : List DUser
  channel : Option Nat
deriving DecidableEq

/-- MafiaGame state (lines 85-122).  playersRef and aliveRef are references
into the lists heap; pheap holds every Player object ever constructed. -/
structure MafiaGame where
  timeout : Int
  is_accepting : Bool
  is_ongoing : Bool
  lists : List (List PlayerId)
  playersRef : ListRef
  aliveRef : ListRef
  pheap : List PObj
  townies : List PlayerId
  mafia : List PlayerId
  rolesKeys : List String
  day_num : Int
  day_phase : String
  no_lynch : Int
  vote_table : List (PlayerId × Int)
  user_to_player : List (Nat × PlayerId)
  gen_channel : Option Nat
deriving DecidableEq

/-- Dereference a list object. -/
def lget (g : MafiaGame) (r : ListRef) : List PlayerId :=
  g.lists.getD r []

/-- Overwrite a list object in place (mutation seen by every reference). -/
def lset (g : MafiaGame) (r : ListRef) (l : List PlayerId) : MafiaGame :=
  { g with lists := g.lists.set r l }

/-- The list object currently bound to self.players. -/
def playersL (g : MafiaGame) : List PlayerId := lget g g.playersRef

/-- The list object currently bound to self.alive. -/
def aliveL (g : MafiaGame) : List PlayerId := lget g g.aliveRef

/-- Read a Player object from the heap. -/
def hread (h : List PObj) (i : Nat) : PObj := h.getD i default

/-- Read a Player object out of the game state. -/
def pread (g : MafiaGame) (i : PlayerId) : PObj := hread g.pheap i

/-- Mutate one attribute bundle of a Player object in place. -/
def pwrite (g : MafiaGame) (i : PlayerId) (f : PObj → PObj) : MafiaGame :=
  { g with pheap := g.pheap.set i (f (hread g.pheap i)) }

/-- dict value read; the Python source indexes the dict directly
(self.vote_table[p]), which raises KeyError when the key is absent; every
call site only reaches present keys, which the invariant proofs establish. -/
def vtLookup (t : List (PlayerId × Int)) (k : PlayerId) : Int :=
  (t.lookup k).getD 0

/-- dict[k] += d on the vote table (in-place update of the entry of k). -/
def vtAdd (t : List (PlayerId × Int)) (k : PlayerId) (d : Int) :
    List (PlayerId × Int) :=
  t.map (fun kv => if kv.1 = k then (kv.1, kv.2 + d) else kv)

/-- Indexed map over the player heap; used to express the Python for-loops
that mutate every Player object whose id lies in a given list. -/
def mapHeapIdx (h : List PObj) (f : Nat → PObj → PObj) (i : Nat) : List PObj :=
  match h with
  | [] => []
  | p :: rest => f i p :: mapHeapIdx rest f (i + 1)

/-- Python round() on the exact rational n/4 (round-half-to-even, as CPython
does for the float n/4, which is exact for these magnitudes). -/
def pyRound4 (n : Nat) : Nat :=
  match n % 4 with
  | 0 => n / 4
  | 1 => n / 4
  | 2 => if (n / 4) % 2 = 0 then n / 4 else n / 4 + 1
  | _ => n / 4 + 1

/-- MafiaGame.__init__ (lines 107-122): two distinct fresh list objects are
bound to self.players and self.alive. -/
def MafiaGame.new : MafiaGame :=
  { timeout := 10, is_accepting := false, is_ongoing := false,
    lists := [[], []], playersRef := 0, aliveRef := 1,
    pheap := [], townies := [], mafia := [], rolesKeys := [],
    day_num := 0, day_phase := "Night", no_lynch := 0,
    vote_table := [], user_to_player := [], gen_channel := none }

/-- init_game (lines 124-138): rebinding self.players to a fresh [] allocates
a new list object; self.alive, no_lynch, timeout and gen_channel are not
touched. -/
def init_game (g : MafiaGame) : MafiaGame :=
  { g with
    is_accepting := true, is_ongoing := true,
    lists := g.lists ++ [[]], playersRef := g.lists.length,
    townies := [], mafia := [], rolesKeys := [],
    day_num := 0, day_phase := "Night",
    vote_table := [], user_to_player := [] }

/-- add_player (lines 158-163): constructs a fresh Player and appends it to
the list object bound to self.players. -/
def add_player (g : MafiaGame) (u : DUser) : MafiaGame :=
  let pid := g.pheap.length
  let g1 := { g with pheap := g.pheap ++
      [{ uid := u.uid, uname := u.uname, role := none,
         is_alive := true, votes_for := none, is_no_lynch := false }] }
  lset g1 g1.playersRef (playersL g1 ++ [pid])

/-- kill_player (lines 165-171): self.alive.remove(player) mutates the list
object bound to self.alive (list.remove deletes the first occurrence and
raises ValueError when absent; every call site passes a member), then sets
player.is_alive = False. -/
def kill_player (g : MafiaGame) (p : PlayerId) : MafiaGame :=
  let g1 := lset g g.aliveRef ((aliveL g).erase p)
  pwrite g1 p (fun q => { q with is_alive := false })

/-- make_vote_table (lines 173-179): dict(zip(alive, zeroes)) rebinds
self.vote_table to a fresh dict with every alive player mapped to 0. -/
def make_vote_table (g : MafiaGame) : MafiaGame :=
  { g with vote_table := (aliveL g).map (fun p => (p, 0)), no_lynch := 0 }

/-- The per-player reset performed inside the progress_day loop. -/
def pclear (p : PObj) : PObj := { p with is_no_lynch := false, votes_for := none }

/-- progress_day (lines 198-212). -/
def progress_day (g : MafiaGame) : MafiaGame × List Event :=
  let g1 :=
    if g.day_phase = "Day" then { g with day_phase := "Night" }
    else { g with day_phase := "Day", day_num := g.day_num + 1 }
  let h2 := mapHeapIdx g1.pheap
    (fun i p => if (playersL g1).contains i then pclear p else p) 0
  let g2 := { g1 with pheap := h2 }
  let g3 := { g2 with no_lynch := 0 }
  let g4 := make_vote_table g3
  (g4, [Event.msg (Dest.channel g4.gen_channel)
          ("It is now " ++ g4.day_phase ++ " " ++ toString g4.day_num ++ ".")])

/-- print_votes (lines 214-227): pure rendering of the tally, no mutation. -/
def print_votes (g : MafiaGame) : List Event :=
  let body := g.vote_table.foldl
    (fun acc kv =>
      let voted_by := (g.vote_table.filter
          (fun kv2 => (pread g kv2.1).votes_for = some kv.1)).map
        (fun kv2 => (pread g kv2.1).uname)
      acc ++ (pread g kv.1).uname ++ "(" ++ toString kv.2 ++ ") - " ++
        String.intercalate ", " voted_by ++ "\n")
    "The votes currently are:\n"
  [Event.msg (Dest.channel g.gen_channel)
    (body ++ "No lynch(" ++ toString g.no_lynch ++ ")")]

/-- check_if_day_should_progress, elif branch (lines 194-196). -/
def noLynchCheck (g : MafiaGame) : MafiaGame × List Event :=
  if g.no_lynch ≥ ((((aliveL g).length + 1) / 2 : Nat) : Int) then
    let r := progress_day g
    (r.1, Event.msg (Dest.channel g.gen_channel)
            "The town has voted for no lynch!" :: r.2)
  else (g, [])

/-- check_if_day_should_progress (lines 181-196).  A Player object is always
truthy in Python, so the guard "if voted and ..." tests voted is not None;
math.floor(len(t)/2) is Nat division of the dict size. -/
def check_if_day_should_progress (g : MafiaGame) (voted : Option PlayerId) :
    MafiaGame × List Event :=
  match voted with
  | some v =>
    if vtLookup g.vote_table v ≥ ((g.vote_table.length / 2 : Nat) : Int) + 1 then
      let txt :=
        if g.day_phase = "Day" then
          "<@" ++ toString (pread g v).uid ++ "> has been lynched!"
        else
          "<@" ++ toString (pread g v).uid ++ "> has been killed!"
      let g1 := kill_player g v
      let r := progress_day g1
      (r.1, Event.msg (Dest.channel g.gen_channel) txt :: r.2)
    else noLynchCheck g
  | none => noLynchCheck g

/-- Outcomes of the voting handlers (which user-facing message path ran). -/
inductive VoteOutcome where
  | assertFailed
  | notInGame
  | voterDead
  | noTarget
  | targetNotInGame
  | targetDead
  | voted
  | alreadyNoLynch
  | votedNoLynch
deriving DecidableEq

/-- Lines 356-367 of vote_to_lynch: clear a standing no-lynch vote, retract
the previous target, announce, increment the new target, repoint votes_for.
pid is the voter, tid the target; an and tn are the display names used in
the announcement. -/
def vote_apply (g : MafiaGame) (pid tid : PlayerId) (an tn : String) :
    MafiaGame × List Event :=
  let g1 :=
    if (pread g pid).is_no_lynch then
      { (pwrite g pid (fun p => { p with is_no_lynch := false })) with
        no_lynch := g.no_lynch - 1 }
    else g
  let txt :=
    if (pread g1 pid).votes_for.isSome then
      an ++ " changed their vote to " ++ tn ++ "!"
    else an ++ " voted for " ++ tn ++ "!"
  let g2 :=
    match (pread g1 pid).votes_for with
    | some prev => { g1 with vote_table := vtAdd g1.vote_table prev (-1) }
    | none => g1
  let g3 := { g2 with vote_table := vtAdd g2.vote_table tid 1 }
  let g4 := pwrite g3 pid (fun p => { p with votes_for := some tid })
  (g4, [Event.msg (Dest.channel g.gen_channel) txt])

/-- vote_to_lynch (lines 326-370).  The Python assert on is_ongoing raises
AssertionError; that aborted path is reported as the assertFailed outcome
with no effect. -/
def vote_to_lynch (g : MafiaGame) (m : Msg) :
    MafiaGame × List Event × VoteOutcome :=
  if ¬ g.is_ongoing then (g, [], .assertFailed)
  else
    match g.user_to_player.lookup m.author.uid with
    | none => (g, [Event.msg (Dest.channel g.gen_channel)
        "Sorry, you are not part of the current game."], .notInGame)
    | some pid =>
      if ¬ (pread g pid).is_alive then
        (g, [Event.msg (Dest.channel g.gen_channel)
          ("Sorry, <@" ++ toString (pread g pid).uid ++ ">. You\x27re dead.")],
         .voterDead)
      else
        match m.mentions with
        | [] => (g, [Event.msg (Dest.channel g.gen_channel)
            "You have to vote for someone! (Or no-lynch!)"], .noTarget)
        | tu :: _ =>
          match g.user_to_player.lookup tu.uid with
          | none => (g, [Event.msg (Dest.channel g.gen_channel)
              "That player is not in the game."], .targetNotInGame)
          | some tid =>
            if ¬ (pread g tid).is_alive then
              (g, [Event.msg (Dest.channel g.gen_channel)
                "You have to vote for someone alive!"], .targetDead)
            else
              let r1 := vote_apply g pid tid m.author.uname tu.uname
              let ev2 := print_votes r1.1
              let r2 := check_if_day_should_progress r1.1 (some tid)
              (r2.1, r1.2 ++ ev2 ++ r2.2, .voted)

/-- vote_no_lynch (lines 372-400). -/
def vote_no_lynch (g : MafiaGame) (m : Msg) :
    MafiaGame × List Event × VoteOutcome :=
  if ¬ g.is_ongoing then (g, [], .assertFailed)
  else
    match g.user_to_player.lookup m.author.uid with
    | none => (g, [Event.msg (Dest.channel g.gen_channel)
        "Sorry, you are not part of the current game."], .notInGame)
    | some pid =>
      if ¬ (pread g pid).is_alive then
        (g, [Event.msg (Dest.channel g.gen_channel)
          ("Sorry, <@" ++ toString (pread g pid).uid ++ ">. You\x27re dead.")],
         .voterDead)
      else if (pread g pid).is_no_lynch then (g, [], .alreadyNoLynch)
      else
        let g1 :=
          match (pread g pid).votes_for with
          | some prev =>
            pwrite { g with vote_table := vtAdd g.vote_table prev (-1) }
              pid (fun p => { p with votes_for := none })
          | none => g
        let g2 := { (pwrite g1 pid (fun p => { p with is_no_lynch := true })) with
          no_lynch := g1.no_lynch + 1 }
        let ev1 := [Event.msg (Dest.channel g2.gen_channel)
          ("<@" ++ toString (pread g2 pid).uid ++ "> votes no lynch!")]
        let ev2 := print_votes g2
        let r := check_if_day_should_progress g2 none
        (r.1, ev1 ++ ev2 ++ r.2, .votedNoLynch)

/-- Display of a role attribute: Python str(p.role) is str(None) = "None"
before assignment and the role_name afterwards. -/
def roleStr : Option String → String
  | some s => s
  | none => "None"

/-- give_roles (lines 237-283), parameterised by the outcome of
random.sample(self.players, num_mafia): mafias is the drawn sample (the
theorems carry the sample contract - a Nodup sublist of the roster of length
round(len(players)/4) - as hypotheses).  townies = list(set(players) -
set(mafias)) is modelled in roster order (Python set order is arbitrary; all
stated properties are order-insensitive).  The two role-assignment loops walk
the disjoint id lists mafias and townies, expressed as one indexed pass over
the heap.  self.alive = self.players shares the list reference.  The ally
messages are sent to self.gen_channel, exactly as in the source. -/
def give_roles (g : MafiaGame) (mafias : List PlayerId) :
    MafiaGame × List Event :=
  let ev0 := [Event.msg (Dest.channel g.gen_channel) "Assigning roles to players."]
  let g0 := { g with rolesKeys := ["mafia", "town"] }
  let townies := (playersL g0).filter (fun p => ¬ mafias.contains p)
  let h1 := mapHeapIdx g0.pheap
    (fun i p =>
      if mafias.contains i then { p with role := some "Mafia " }
      else if townies.contains i then { p with role := some "Townie" }
      else p) 0
  let g1 := { g0 with pheap := h1 }
  let u2p := (playersL g1).map (fun p => ((pread g1 p).uid, p))
  let g2 := { g1 with
    mafia := mafias, townies := townies,
    aliveRef := g1.playersRef, user_to_player := u2p }
  let ev1 := [Event.msg (Dest.channel g2.gen_channel) "PM-ing roles to players."]
  let evRoles := (playersL g2).map (fun p =>
    Event.msg (Dest.user (pread g2 p).uid)
      ("You are a " ++ roleStr (pread g2 p).role ++ "."))
  let evAllies :=
    if g2.mafia.length > 1 then
      g2.mafia.map (fun m =>
        let allies := g2.mafia.erase m
        let names := allies.map (fun a => (pread g2 a).uname)
        Event.msg (Dest.channel g2.gen_channel)
          ("Your allies are " ++ String.intercalate ", " names))
    else []
  (g2, ev0 ++ ev1 ++ evRoles ++ evAllies)

/-- The opening announcement of start_new_game (lines 300-301), formatted
with the given timeout value. -/
def openingText (t : Int) : String :=
  "A Mafia game has started! Players who want to join may type " ++
  "\x27:>join\x27. Joining period will last for " ++ toString t ++ " seconds."

/-- Decimal evaluation of a digit string; none when empty or when any
character is not a digit. -/
def digitsVal? (l : List Char) : Option Nat :=
  match l with
  | [] => none
  | _ => l.foldl
      (fun acc c => acc.bind
        (fun n => if c.isDigit then some (n * 10 + (c.toNat - 48)) else none))
      (some 0)

/-- Python int(s) on the output of str.split(" "): an optional sign
followed by decimal digits; none models the ValueError path.  (Python also
accepts surrounding whitespace and digit-group underscores; neither can
appear in a token produced by split(" ") except the underscore corner
case, which no claim touches.) -/
def pyInt? (s : String) : Option Int :=
  match s.data with
  | '-' :: rest => (digitsVal? rest).map (fun n => -(n : Int))
  | '+' :: rest => (digitsVal? rest).map (fun n => (n : Int))
  | l => (digitsVal? l).map (fun n => (n : Int))

/-- int(args[1]) with the ValueError fallback to 0 of lines 306-309. -/
def parseIntOr0 (s : String) : Int := (pyInt? s).getD 0

/-- start_new_game (lines 285-324), parameterised like give_roles by the
random sample.  The opening text is formatted with self.timeout before
args[1] is parsed; asyncio.sleep then waits for the freshly parsed value.
The end_message string built on lines 318-319 is never passed to
send_message in the source, so it produces no event. -/
def start_new_game (g : MafiaGame) (m : Msg) (mafias : List PlayerId) :
    MafiaGame × List Event :=
  if g.is_ongoing then
    (g, [Event.msg (Dest.channel g.gen_channel) "There is a game already ongoing!"])
  else
    let g1 := init_game g
    let g2 := { g1 with gen_channel := m.channel }
    let ev0 := Event.msg (Dest.channel g2.gen_channel) (openingText g2.timeout)
    let g3 :=
      if m.content_args.length > 1 then
        { g2 with timeout := parseIntOr0 (m.content_args.getD 1 "") }
      else g2
    let g4 := m.mentions.foldl add_player g3
    let evSleep := Event.sleep g4.timeout
    let g5 := { g4 with is_accepting := false }
    let r1 := give_roles g5 mafias
    let r2 := progress_day r1.1
    (r2.1, ev0 :: evSleep :: (r1.2 ++ r2.2))

/-- end_game (lines 140-156): rebinding both self.players and self.alive to
fresh [] objects; the source sets is_accepting and is_ongoing back to True
here. -/
def end_game (g : MafiaGame) : MafiaGame :=
  { g with
    is_accepting := true, is_ongoing := true,
    lists := g.lists ++ [[], []],
    playersRef := g.lists.length, aliveRef := g.lists.length + 1,
    townies := [], mafia := [], rolesKeys := [],
    day_num := 0, day_phase := "Night",
    vote_table := [], user_to_player := [], gen_channel := none }

/- ------------------------------------------------------------------ -/
/- Basic list lemmas used by the heap model.                           -/
/- ------------------------------------------------------------------ -/

theorem getD_ge {a : Type} (l : List a) (i : Nat) (d : a)
    (h : l.length ≤ i) : l.getD i d = d := by
  induction l generalizing i with
  | nil => simp [List.getD]
  | cons x xs ih =>
    cases i with
    | zero => simp at h
    | succ n => simpa [List.getD_cons_succ] using ih n (Nat.le_of_succ_le_succ h)

theorem getD_set_self {a : Type} (l : List a) (i : Nat) (v d : a)
    (h : i < l.length) : (l.set i v).getD i d = v := by
  induction l generalizing i with
  | nil => simp at h
  | cons x xs ih =>
    cases i with
    | zero => rfl
    | succ n =>
      simpa [List.getD_cons_succ] using ih n (Nat.lt_of_succ_lt_succ h)

theorem getD_set_ne {a : Type} (l : List a) (i j : Nat) (v d : a)
    (h : j ≠ i) : (l.set i v).getD j d = l.getD j d := by
  induction l generalizing i j with
  | nil => rfl
  | cons x xs ih =>
    cases i with
    | zero =>
      cases j with
      | zero => exact absurd rfl h
      | succ n => rfl
    | succ m =>
      cases j with
      | zero => rfl
      | succ n =>
        simpa [List.getD_cons_succ] using
          ih m n (fun hc => h (by simp [hc]))

theorem hread_ge (h : List PObj) (i : Nat) (hi : h.length ≤ i) :
    hread h i = default := getD_ge h i default hi

theorem hread_set_self (h : List PObj) (i : Nat) (p : PObj)
    (hi : i < h.length) : hread (h.set i p) i = p :=
  getD_set_self h i p default hi

theorem hread_set_ne (h : List PObj) (i j : Nat) (p : PObj)
    (hne : j ≠ i) : hread (h.set i p) j = hread h j :=
  getD_set_ne h i j p default hne

theorem alive_lt_len (g : MafiaGame) (p : PlayerId)
    (hp : (pread g p).is_alive = true) : p < g.pheap.length := by
  by_contra hc
  have hd : pread g p = default := hread_ge g.pheap p (Nat.le_of_not_lt hc)
  rw [hd] at hp
  simp [default] at hp

theorem mapHeapIdx_length (h : List PObj) (f : Nat → PObj → PObj) (i : Nat) :
    (mapHeapIdx h f i).length = h.length := by
  induction h generalizing i with
  | nil => rfl
  | cons p rest ih => simp [mapHeapIdx, ih]

theorem hread_mapHeapIdx (h : List PObj) (f : Nat → PObj → PObj) (i j : Nat)
    (hj : j < h.length) :
    hread (mapHeapIdx h f i) j = f (i + j) (hread h j) := by
  induction h generalizing i j with
  | nil => simp at hj
  | cons p rest ih =>
    cases j with
    | zero => simp [mapHeapIdx, hread, List.getD]
    | succ n =>
      have := ih (i + 1) n (Nat.lt_of_succ_lt_succ hj)
      simpa [mapHeapIdx, hread, List.getD_cons_succ, Nat.add_assoc,
        Nat.add_comm 1 n] using this

/- ------------------------------------------------------------------ -/
/- Vote-table (dict) lemmas.                                           -/
/- ------------------------------------------------------------------ -/

theorem vtAdd_map_fst (t : List (PlayerId × Int)) (k : PlayerId) (d : Int) :
    (vtAdd t k d).map Prod.fst = t.map Prod.fst := by
  induction t with
  | nil => rfl
  | cons kv rest ih =>
    by_cases hk : kv.1 = k <;> simp [vtAdd, hk] at ih ⊢ <;> exact ih

theorem vtAdd_length (t : List (PlayerId × Int)) (k : PlayerId) (d : Int) :
    (vtAdd t k d).length = t.length := by
  simp [vtAdd]

theorem vtAdd_cons (a : PlayerId) (b : Int) (rest : List (PlayerId × Int))
    (k : PlayerId) (d : Int) :
    vtAdd ((a, b) :: rest) k d =
      (if a = k then (a, b + d) else (a, b)) :: vtAdd rest k d := by
  by_cases h : a = k <;> simp [vtAdd, h]

theorem lookup_cons {b2 : Type} (k a : Nat) (b : b2) (t : List (Nat × b2)) :
    List.lookup k ((a, b) :: t) = if k = a then some b else List.lookup k t := by
  by_cases h : k = a
  · subst h
    simp [List.lookup]
  · have hb : (k == a) = false := beq_eq_false_iff_ne.mpr h
    simp [List.lookup, hb, h]

theorem lookup_mem {b2 : Type} (t : List (Nat × b2)) (a : Nat) (b : b2)
    (h : t.lookup a = some b) : (a, b) ∈ t := by
  induction t with
  | nil => cases h
  | cons kv rest ih =>
    obtain ⟨k, v⟩ := kv
    rw [lookup_cons] at h
    by_cases hk : a = k
    · rw [if_pos hk] at h
      injection h with h
      subst hk
      subst h
      simp
    · rw [if_neg hk] at h
      simp [ih h]

theorem vtAdd_absent (t : List (PlayerId × Int)) (k : PlayerId) (d : Int)
    (hk : k ∉ t.map Prod.fst) : vtAdd t k d = t := by
  induction t with
  | nil => rfl
  | cons kv rest ih =>
    obtain ⟨a, b⟩ := kv
    simp only [List.map_cons, List.mem_cons] at hk
    push_neg at hk
    rw [vtAdd_cons, if_neg (fun hc => hk.1 hc.symm), ih hk.2]

theorem lookup_vtAdd_self (t : List (PlayerId × Int)) (k : PlayerId) (d : Int) :
    (vtAdd t k d).lookup k = (t.lookup k).map (fun x => x + d) := by
  induction t with
  | nil => rfl
  | cons kv rest ih =>
    obtain ⟨a, b⟩ := kv
    by_cases h : a = k
    · subst h
      rw [vtAdd_cons, if_pos rfl, lookup_cons, if_pos rfl, lookup_cons,
        if_pos rfl]
      rfl
    · rw [vtAdd_cons, if_neg h, lookup_cons, if_neg (fun hc => h hc.symm),
        lookup_cons, if_neg (fun hc => h hc.symm), ih]

theorem lookup_vtAdd_ne (t : List (PlayerId × Int)) (k q : PlayerId) (d : Int)
    (h : q ≠ k) : (vtAdd t k d).lookup q = t.lookup q := by
  induction t with
  | nil => rfl
  | cons kv rest ih =>
    obtain ⟨a, b⟩ := kv
    by_cases ha : a = k
    · subst ha
      rw [vtAdd_cons, if_pos rfl, lookup_cons, if_neg h, lookup_cons,
        if_neg h, ih]
    · rw [vtAdd_cons, if_neg ha]
      by_cases hq : q = a
      · subst hq
        rw [lookup_cons, if_pos rfl, lookup_cons, if_pos rfl]
      · rw [lookup_cons, if_neg hq, lookup_cons, if_neg hq, ih]

theorem lookup_some_of_mem_keys (t : List (PlayerId × Int)) (k : PlayerId)
    (hk : k ∈ t.map Prod.fst) : ∃ v, t.lookup k = some v := by
  induction t with
  | nil => simp at hk
  | cons kv rest ih =>
    obtain ⟨a, b⟩ := kv
    by_cases h : k = a
    · exact ⟨b, by rw [lookup_cons, if_pos h]⟩
    · simp only [List.map_cons, List.mem_cons] at hk
      rcases hk with hk | hk
      · exact absurd hk h
      · obtain ⟨v, hv⟩ := ih hk
        exact ⟨v, by rw [lookup_cons, if_neg h, hv]⟩

theorem vtLookup_vtAdd_self (t : List (PlayerId × Int)) (k : PlayerId) (d : Int)
    (hk : k ∈ t.map Prod.fst) :
    vtLookup (vtAdd t k d) k = vtLookup t k + d := by
  obtain ⟨v, hv⟩ := lookup_some_of_mem_keys t k hk
  simp [vtLookup, lookup_vtAdd_self, hv]

theorem vtLookup_vtAdd_ne (t : List (PlayerId × Int)) (k q : PlayerId) (d : Int)
    (h : q ≠ k) : vtLookup (vtAdd t k d) q = vtLookup t q := by
  simp [vtLookup, lookup_vtAdd_ne t k q d h]

theorem sum_vtAdd (t : List (PlayerId × Int)) (k : PlayerId) (d : Int)
    (hk : k ∈ t.map Prod.fst) (hnd : (t.map Prod.fst).Nodup) :
    ((vtAdd t k d).map Prod.snd).sum = (t.map Prod.snd).sum + d := by
  induction t with
  | nil => simp at hk
  | cons kv rest ih =>
    obtain ⟨a, b⟩ := kv
    simp only [List.map_cons, List.nodup_cons] at hnd
    by_cases h : a = k
    · subst h
      rw [vtAdd_cons, if_pos rfl, vtAdd_absent rest a d hnd.1]
      simp [List.sum_cons]
      ring
    · simp only [List.map_cons, List.mem_cons] at hk
      rcases hk with hk | hk
      · exact absurd hk.symm h
      · rw [vtAdd_cons, if_neg h]
        simp only [List.map_cons, List.sum_cons]
        rw [ih hk hnd.2]
        ring

/- ------------------------------------------------------------------ -/
/- Counting lemmas.                                                    -/
/- ------------------------------------------------------------------ -/

theorem countP_ext (l : List Nat) (f f2 : Nat → Bool)
    (h : ∀ x ∈ l, f x = f2 x) : l.countP f = l.countP f2 := by
  induction l with
  | nil => rfl
  | cons x xs ih =>
    rw [List.countP_cons, List.countP_cons, h x (by simp),
      ih (fun y hy => h y (by simp [hy]))]

theorem countP_update (l : List Nat) (hnd : l.Nodup) (a : Nat) (ha : a ∈ l)
    (f f2 : Nat → Bool) (h : ∀ x ∈ l, x ≠ a → f x = f2 x) :
    (l.countP f2 : Int) = (l.countP f : Int) +
      ((if f2 a then (1 : Int) else 0) - (if f a then (1 : Int) else 0)) := by
  induction l with
  | nil => simp at ha
  | cons x xs ih =>
    simp only [List.nodup_cons] at hnd
    by_cases hax : x = a
    · subst hax
      have hrest : xs.countP f = xs.countP f2 :=
        countP_ext xs f f2
          (fun y hy => h y (by simp [hy]) (fun hc => hnd.1 (hc ▸ hy)))
      rw [List.countP_cons, List.countP_cons, hrest]
      push_cast
      by_cases hf : f x <;> by_cases hf2 : f2 x <;>
        simp [hf, hf2]
    · have hmem : a ∈ xs := by
        rcases List.mem_cons.mp ha with hc | hc
        · exact absurd hc.symm hax
        · exact hc
      have hx : f x = f2 x := h x (by simp) hax
      have := ih hnd.2 hmem (fun y hy hya => h y (by simp [hy]) hya)
      rw [List.countP_cons, List.countP_cons, hx]
      push_cast at this ⊢
      by_cases hf2 : f2 x <;> simp [hf2] at this ⊢ <;> omega

/- ------------------------------------------------------------------ -/
/- Projection lemmas for progress_day.                                 -/
/- ------------------------------------------------------------------ -/

theorem pclear_default : pclear default = default := rfl

theorem progress_day_alive (g : MafiaGame) :
    aliveL (progress_day g).1 = aliveL g := by
  unfold progress_day make_vote_table
  by_cases h : g.day_phase = "Day" <;> simp [h, aliveL, lget]

theorem progress_day_players (g : MafiaGame) :
    playersL (progress_day g).1 = playersL g := by
  unfold progress_day make_vote_table
  by_cases h : g.day_phase = "Day" <;> simp [h, playersL, lget]

theorem progress_day_table (g : MafiaGame) :
    (progress_day g).1.vote_table = (aliveL g).map (fun p => (p, 0)) := by
  unfold progress_day make_vote_table
  by_cases h : g.day_phase = "Day" <;> simp [h, aliveL, lget]

theorem progress_day_nl (g : MafiaGame) : (progress_day g).1.no_lynch = 0 := by
  unfold progress_day make_vote_table
  by_cases h : g.day_phase = "Day" <;> simp [h]

theorem progress_day_len (g : MafiaGame) :
    (progress_day g).1.pheap.length = g.pheap.length := by
  unfold progress_day make_vote_table
  by_cases h : g.day_phase = "Day" <;> simp [h, mapHeapIdx_length]

theorem progress_day_pread (g : MafiaGame) (j : Nat) :
    pread (progress_day g).1 j =
      if (playersL g).contains j then pclear (pread g j) else pread g j := by
  unfold progress_day make_vote_table pread
  by_cases h : g.day_phase = "Day" <;>
  · simp only [h, if_pos, if_neg, if_true, if_false, ite_true, ite_false]
    by_cases hj : j < g.pheap.length
    · rw [hread_mapHeapIdx _ _ 0 j (by simpa using hj)]
      simp [playersL, lget]
    · have hge : g.pheap.length ≤ j := Nat.le_of_not_lt hj
      rw [hread_ge _ j (by simpa [mapHeapIdx_length] using hge),
        hread_ge _ j (by simpa using hge)]
      split <;> simp [pclear_default]

theorem progress_day_phase (g : MafiaGame) :
    (progress_day g).1.day_phase =
      if g.day_phase = "Day" then "Night" else "Day" := by
  unfold progress_day make_vote_table
  by_cases h : g.day_phase = "Day" <;> simp [h]

theorem progress_day_num (g : MafiaGame) :
    (progress_day g).1.day_num =
      if g.day_phase = "Day" then g.day_num else g.day_num + 1 := by
  unfold progress_day make_vote_table
  by_cases h : g.day_phase = "Day" <;> simp [h]

theorem progress_day_phase_ne (g : MafiaGame) :
    (progress_day g).1.day_phase ≠ g.day_phase := by
  rw [progress_day_phase]
  by_cases h : g.day_phase = "Day" <;> simp [h]
  · exact fun hc => h hc.symm

theorem progress_day_lists (g : MafiaGame) :
    (progress_day g).1.lists = g.lists := by
  unfold progress_day make_vote_table
  by_cases h : g.day_phase = "Day" <;> simp [h]

theorem progress_day_aliveRef (g : MafiaGame) :
    (progress_day g).1.aliveRef = g.aliveRef := by
  unfold progress_day make_vote_table
  by_cases h : g.day_phase = "Day" <;> simp [h]

theorem progress_day_playersRef (g : MafiaGame) :
    (progress_day g).1.playersRef = g.playersRef := by
  unfold progress_day make_vote_table
  by_cases h : g.day_phase = "Day" <;> simp [h]

theorem progress_day_chan (g : MafiaGame) :
    (progress_day g).1.gen_channel = g.gen_channel := by
  unfold progress_day make_vote_table
  by_cases h : g.day_phase = "Day" <;> simp [h]

theorem progress_day_ongoing (g : MafiaGame) :
    (progress_day g).1.is_ongoing = g.is_ongoing := by
  unfold progress_day make_vote_table
  by_cases h : g.day_phase = "Day" <;> simp [h]

theorem progress_day_u2p (g : MafiaGame) :
    (progress_day g).1.user_to_player = g.user_to_player := by
  unfold progress_day make_vote_table
  by_cases h : g.day_phase = "Day" <;> simp [h]

theorem progress_day_events (g : MafiaGame) :
    (progress_day g).2 =
      [Event.msg (Dest.channel g.gen_channel)
        ("It is now " ++ (if g.day_phase = "Day" then "Night" else "Day") ++
          " " ++ toString (if g.day_phase = "Day" then g.day_num
            else g.day_num + 1) ++ ".")] := by
  unfold progress_day make_vote_table
  by_cases h : g.day_phase = "Day" <;> simp [h]

/- ------------------------------------------------------------------ -/
/- Projection lemmas for kill_player.                                  -/
/- ------------------------------------------------------------------ -/

theorem kill_alive (g : MafiaGame) (v : PlayerId)
    (haref : g.aliveRef < g.lists.length) :
    aliveL (kill_player g v) = (aliveL g).erase v := by
  unfold kill_player pwrite lset aliveL lget
  simp only []
  exact getD_set_self g.lists g.aliveRef _ [] haref

theorem kill_players_of_ne (g : MafiaGame) (v : PlayerId)
    (h : g.playersRef ≠ g.aliveRef) :
    playersL (kill_player g v) = playersL g := by
  unfold kill_player pwrite lset playersL lget
  simp only []
  exact getD_set_ne g.lists g.aliveRef g.playersRef _ [] h

theorem kill_players_of_eq (g : MafiaGame) (v : PlayerId)
    (h : g.playersRef = g.aliveRef) (haref : g.aliveRef < g.lists.length) :
    playersL (kill_player g v) = (aliveL g).erase v := by
  unfold kill_player pwrite lset playersL lget
  simp only [h]
  exact getD_set_self g.lists g.aliveRef _ [] haref

theorem kill_pread_self (g : MafiaGame) (v : PlayerId)
    (hv : v < g.pheap.length) :
    pread (kill_player g v) v = { pread g v with is_alive := false } := by
  unfold kill_player pwrite lset pread
  simp only []
  exact hread_set_self g.pheap v _ hv

theorem kill_pread_ne (g : MafiaGame) (v j : PlayerId) (h : j ≠ v) :
    pread (kill_player g v) j = pread g j := by
  unfold kill_player pwrite lset pread
  simp only []
  exact hread_set_ne g.pheap v j _ h

theorem kill_len (g : MafiaGame) (v : PlayerId) :
    (kill_player g v).pheap.length = g.pheap.length := by
  unfold kill_player pwrite lset
  simp

theorem kill_lists_len (g : MafiaGame) (v : PlayerId) :
    (kill_player g v).lists.length = g.lists.length := by
  unfold kill_player pwrite lset
  simp

theorem kill_table (g : MafiaGame) (v : PlayerId) :
    (kill_player g v).vote_table = g.vote_table := rfl

theorem kill_refs (g : MafiaGame) (v : PlayerId) :
    (kill_player g v).aliveRef = g.aliveRef ∧
    (kill_player g v).playersRef = g.playersRef := ⟨rfl, rfl⟩

theorem kill_misc (g : MafiaGame) (v : PlayerId) :
    (kill_player g v).no_lynch = g.no_lynch ∧
    (kill_player g v).day_phase = g.day_phase ∧
    (kill_player g v).day_num = g.day_num ∧
    (kill_player g v).gen_channel = g.gen_channel ∧
    (kill_player g v).user_to_player = g.user_to_player ∧
    (kill_player g v).is_ongoing = g.is_ongoing :=
  ⟨rfl, rfl, rfl, rfl, rfl, rfl⟩

/- ------------------------------------------------------------------ -/
/- Closed forms of the vote mutations.                                 -/
/- ------------------------------------------------------------------ -/

/-- The vote table after retracting the previous vote of a voter whose
Player record is p0 (lines 360-362). -/
def tableRetract (t : List (PlayerId × Int)) (p0 : PObj) :
    List (PlayerId × Int) :=
  match p0.votes_for with
  | some prev => vtAdd t prev (-1)
  | none => t

/-- The vote table after a full vote mutation by a voter whose Player
record is p0: retract the previous vote, then add one vote for tid. -/
def tableAfterVote (t : List (PlayerId × Int)) (p0 : PObj) (tid : PlayerId) :
    List (PlayerId × Int) :=
  vtAdd (tableRetract t p0) tid 1

theorem vote_apply_table (g : MafiaGame) (pid tid : PlayerId) (an tn : String)
    (hpid : pid < g.pheap.length) :
    (vote_apply g pid tid an tn).1.vote_table =
      tableAfterVote g.vote_table (pread g pid) tid := by
  simp only [vote_apply, pwrite, pread, tableAfterVote, tableRetract]
  by_cases hnl : (hread g.pheap pid).is_no_lynch
  · simp only [hnl, ite_true, hread_set_self g.pheap pid _ hpid]
    split <;> (rename_i h; simp [h])
  · simp only [hnl, Bool.false_eq_true, ite_false]
    split <;> (rename_i h; simp [h])

theorem vote_apply_nl (g : MafiaGame) (pid tid : PlayerId) (an tn : String)
    (hpid : pid < g.pheap.length) :
    (vote_apply g pid tid an tn).1.no_lynch =
      if (pread g pid).is_no_lynch then g.no_lynch - 1 else g.no_lynch := by
  simp only [vote_apply, pwrite, pread]
  by_cases hnl : (hread g.pheap pid).is_no_lynch
  · simp only [hnl, ite_true, hread_set_self g.pheap pid _ hpid]
    split <;> simp [hnl]
  · simp only [hnl, Bool.false_eq_true, ite_false]
    split <;> simp [hnl]

theorem vote_apply_pread_self (g : MafiaGame) (pid tid : PlayerId)
    (an tn : String) (hpid : pid < g.pheap.length) :
    pread (vote_apply g pid tid an tn).1 pid =
      { pread g pid with is_no_lynch := false, votes_for := some tid } := by
  simp only [vote_apply, pwrite, pread]
  by_cases hnl : (hread g.pheap pid).is_no_lynch
  · simp only [hnl, ite_true, hread_set_self g.pheap pid _ hpid]
    split <;> simp [List.set_set, hread_set_self g.pheap pid _ hpid]
  · have hfalse : (hread g.pheap pid).is_no_lynch = false := by
      simpa using hnl
    simp only [hnl, Bool.false_eq_true, ite_false]
    split <;> simp [hread_set_self g.pheap pid _ hpid, hfalse]

theorem vote_apply_pread_ne (g : MafiaGame) (pid tid j : PlayerId)
    (an tn : String) (hj : j ≠ pid) :
    pread (vote_apply g pid tid an tn).1 j = pread g j := by
  simp only [vote_apply, pwrite, pread]
  by_cases hnl : (hread g.pheap pid).is_no_lynch
  · simp only [hnl, ite_true]
    split <;> simp [hread_set_ne _ pid j _ hj]
  · simp only [hnl, Bool.false_eq_true, ite_false]
    split <;> simp [hread_set_ne _ pid j _ hj]

theorem vote_apply_len (g : MafiaGame) (pid tid : PlayerId) (an tn : String) :
    (vote_apply g pid tid an tn).1.pheap.length = g.pheap.length := by
  simp only [vote_apply, pwrite, pread]
  by_cases hnl : (hread g.pheap pid).is_no_lynch
  · simp only [hnl, ite_true]
    split <;> simp
  · simp only [hnl, Bool.false_eq_true, ite_false]
    split <;> simp

theorem vote_apply_lists (g : MafiaGame) (pid tid : PlayerId) (an tn : String) :
    (vote_apply g pid tid an tn).1.lists = g.lists ∧
    (vote_apply g pid tid an tn).1.aliveRef = g.aliveRef ∧
    (vote_apply g pid tid an tn).1.playersRef = g.playersRef := by
  refine ⟨?_, ?_, ?_⟩ <;>
  · simp only [vote_apply, pwrite, pread]
    by_cases hnl : (hread g.pheap pid).is_no_lynch
    · simp only [hnl, ite_true]
      split <;> simp
    · simp only [hnl, Bool.false_eq_true, ite_false]
      split <;> simp

theorem vote_apply_alive (g : MafiaGame) (pid tid : PlayerId)
    (an tn : String) : aliveL (vote_apply g pid tid an tn).1 = aliveL g := by
  have h := vote_apply_lists g pid tid an tn
  unfold aliveL lget
  rw [h.1, h.2.1]

theorem vote_apply_players (g : MafiaGame) (pid tid : PlayerId)
    (an tn : String) : playersL (vote_apply g pid tid an tn).1 = playersL g := by
  have h := vote_apply_lists g pid tid an tn
  unfold playersL lget
  rw [h.1, h.2.2]

theorem vote_apply_misc (g : MafiaGame) (pid tid : PlayerId) (an tn : String) :
    (vote_apply g pid tid an tn).1.day_phase = g.day_phase ∧
    (vote_apply g pid tid an tn).1.day_num = g.day_num ∧
    (vote_apply g pid tid an tn).1.gen_channel = g.gen_channel ∧
    (vote_apply g pid tid an tn).1.user_to_player = g.user_to_player ∧
    (vote_apply g pid tid an tn).1.is_ongoing = g.is_ongoing := by
  refine ⟨?_, ?_, ?_, ?_, ?_⟩ <;>
  · simp only [vote_apply, pwrite, pread]
    by_cases hnl : (hread g.pheap pid).is_no_lynch
    · simp only [hnl, ite_true]
      split <;> simp
    · simp only [hnl, Bool.false_eq_true, ite_false]
      split <;> simp

theorem vote_to_lynch_success (g : MafiaGame) (m : Msg) (pid tid : PlayerId)
    (tu : DUser) (rest : List DUser)
    (hon : g.is_ongoing = true)
    (hlookA : g.user_to_player.lookup m.author.uid = some pid)
    (halive : (pread g pid).is_alive = true)
    (hms : m.mentions = tu :: rest)
    (hlookT : g.user_to_player.lookup tu.uid = some tid)
    (htalive : (pread g tid).is_alive = true) :
    (vote_to_lynch g m).1 =
      (check_if_day_should_progress
        (vote_apply g pid tid m.author.uname tu.uname).1 (some tid)).1 ∧
    (vote_to_lynch g m).2.2 = VoteOutcome.voted := by
  unfold vote_to_lynch
  rw [hon, hlookA, hms]
  simp [halive, htalive, hlookT]

theorem vote_no_lynch_success (g : MafiaGame) (m : Msg) (pid : PlayerId)
    (hon : g.is_ongoing = true)
    (hlook : g.user_to_player.lookup m.author.uid = some pid)
    (halive : (pread g pid).is_alive = true)
    (hnonl : (pread g pid).is_no_lynch = false)
    (hpid : pid < g.pheap.length) :
    (vote_no_lynch g m).1 =
      (check_if_day_should_progress
        { g with
          pheap := g.pheap.set pid
            { pread g pid with votes_for := none, is_no_lynch := true },
          no_lynch := g.no_lynch + 1,
          vote_table := tableRetract g.vote_table (pread g pid) } none).1 := by
  have halive2 : (hread g.pheap pid).is_alive = true := halive
  have hnonl2 : (hread g.pheap pid).is_no_lynch = false := hnonl
  simp only [vote_no_lynch, pwrite, pread, tableRetract, hon, hlook, halive2,
    hnonl2, Bool.false_eq_true, Bool.true_eq_false, not_true, not_false_iff,
    ite_true, ite_false, if_true, if_false, reduceIte]
  cases hvf : (hread g.pheap pid).votes_for with
  | some prev =>
    simp only [hvf]
    have hpid2 : pid < (g.pheap.set pid
        { hread g.pheap pid with votes_for := none }).length := by
      simpa using hpid
    simp only [hread_set_self g.pheap pid _ hpid, hread_set_self _ pid _ hpid2,
      List.set_set]
  | none =>
    simp only [hvf]
    rw [hon, halive2]

/- ------------------------------------------------------------------ -/
/- The in-phase invariant of the voting protocol.                      -/
/- ------------------------------------------------------------------ -/

/-- State invariant maintained by the voting protocol within a phase:
the alive list is duplicate-free and lies inside the roster, membership in
alive coincides with the is_alive flag, the tally keys are exactly the alive
players, standing votes point at alive players, no player both votes and
no-lynches, the tally sum counts the alive players with a standing vote, and
no_lynch counts the alive players with is_no_lynch set. -/
structure Inv (g : MafiaGame) : Prop where
  nodup : (aliveL g).Nodup
  sub : ∀ p, p ∈ aliveL g → p ∈ playersL g
  flag : ∀ p, p ∈ aliveL g ↔ (pread g p).is_alive = true
  aref : g.aliveRef < g.lists.length
  keys : g.vote_table.map Prod.fst = aliveL g
  vf_mem : ∀ p, p ∈ aliveL g → ∀ t2, (pread g p).votes_for = some t2 →
    t2 ∈ aliveL g
  excl : ∀ i, (pread g i).votes_for = none ∨ (pread g i).is_no_lynch = false
  sum_eq : (g.vote_table.map Prod.snd).sum =
    (((aliveL g).countP (fun p => (pread g p).votes_for.isSome) : Nat) : Int)
  nl_eq : g.no_lynch =
    (((aliveL g).countP (fun p => (pread g p).is_no_lynch) : Nat) : Int)

theorem tableRetract_map_fst (t : List (PlayerId × Int)) (p0 : PObj) :
    (tableRetract t p0).map Prod.fst = t.map Prod.fst := by
  unfold tableRetract
  cases p0.votes_for <;> simp [vtAdd_map_fst]

theorem tableAfterVote_map_fst (t : List (PlayerId × Int)) (p0 : PObj)
    (tid : PlayerId) :
    (tableAfterVote t p0 tid).map Prod.fst = t.map Prod.fst := by
  unfold tableAfterVote
  rw [vtAdd_map_fst, tableRetract_map_fst]

theorem sum_tableRetract (t : List (PlayerId × Int)) (p0 : PObj)
    (hnd : (t.map Prod.fst).Nodup)
    (hprev : ∀ prev, p0.votes_for = some prev → prev ∈ t.map Prod.fst) :
    ((tableRetract t p0).map Prod.snd).sum =
      (t.map Prod.snd).sum - (if p0.votes_for.isSome then 1 else 0) := by
  unfold tableRetract
  cases hv : p0.votes_for with
  | none => simp
  | some prev =>
    rw [sum_vtAdd t prev (-1) (hprev prev hv) hnd]
    simp
    ring

theorem sum_tableAfterVote (t : List (PlayerId × Int)) (p0 : PObj)
    (tid : PlayerId) (hnd : (t.map Prod.fst).Nodup)
    (htid : tid ∈ t.map Prod.fst)
    (hprev : ∀ prev, p0.votes_for = some prev → prev ∈ t.map Prod.fst) :
    ((tableAfterVote t p0 tid).map Prod.snd).sum =
      (t.map Prod.snd).sum + 1 - (if p0.votes_for.isSome then 1 else 0) := by
  unfold tableAfterVote
  rw [sum_vtAdd _ tid 1 (by rw [tableRetract_map_fst]; exact htid)
    (by rw [tableRetract_map_fst]; exact hnd),
    sum_tableRetract t p0 hnd hprev]
  ring

theorem progress_pread_alive (g : MafiaGame) (j : Nat) :
    (pread (progress_day g).1 j).is_alive = (pread g j).is_alive := by
  rw [progress_day_pread]
  split <;> simp [pclear]

theorem map_fst_zeros (l : List PlayerId) :
    (l.map (fun p => (p, (0 : Int)))).map Prod.fst = l := by
  induction l <;> simp [*]

theorem sum_snd_zeros (l : List PlayerId) :
    ((l.map (fun p => (p, (0 : Int)))).map Prod.snd).sum = 0 := by
  rw [List.map_map]
  induction l with
  | nil => rfl
  | cons x xs ih => simpa using ih

theorem inv_progress (g : MafiaGame)
    (hnodup : (aliveL g).Nodup)
    (hsub : ∀ p, p ∈ aliveL g → p ∈ playersL g)
    (hflag : ∀ p, p ∈ aliveL g ↔ (pread g p).is_alive = true)
    (haref : g.aliveRef < g.lists.length)
    (hexcl : ∀ i, (pread g i).votes_for = none ∨
      (pread g i).is_no_lynch = false) :
    Inv (progress_day g).1 := by
  have halive := progress_day_alive g
  have hplayers := progress_day_players g
  have hclean : ∀ p, p ∈ aliveL g →
      (pread (progress_day g).1 p).votes_for = none ∧
      (pread (progress_day g).1 p).is_no_lynch = false := by
    intro p hp
    have hmem : p ∈ playersL g := hsub p hp
    rw [progress_day_pread]
    simp [hmem, pclear]
  refine ⟨?_, ?_, ?_, ?_, ?_, ?_, ?_, ?_, ?_⟩
  · rw [halive]; exact hnodup
  · intro p hp
    rw [halive] at hp
    rw [hplayers]
    exact hsub p hp
  · intro p
    rw [halive, progress_pread_alive]
    exact hflag p
  · rw [progress_day_aliveRef, progress_day_lists]
    exact haref
  · rw [progress_day_table, halive, map_fst_zeros]
  · intro p hp t2 ht2
    rw [halive] at hp
    rw [(hclean p hp).1] at ht2
    cases ht2
  · intro i
    rw [progress_day_pread]
    by_cases hc : i ∈ playersL g
    · simp [hc, pclear]
    · simp [hc]
      exact hexcl i
  · rw [progress_day_table, halive, sum_snd_zeros]
    have hz : (aliveL g).countP
        (fun p => (pread (progress_day g).1 p).votes_for.isSome) = 0 := by
      apply List.countP_eq_zero.mpr
      intro a ha
      rw [(hclean a ha).1]
      simp
    rw [hz]
    simp
  · rw [progress_day_nl, halive]
    have hz : (aliveL g).countP
        (fun p => (pread (progress_day g).1 p).is_no_lynch) = 0 := by
      apply List.countP_eq_zero.mpr
      intro a ha
      rw [(hclean a ha).2]
      simp
    rw [hz]
    simp

theorem inv_noLynchCheck (g : MafiaGame) (hInv : Inv g) :
    Inv (noLynchCheck g).1 := by
  unfold noLynchCheck
  split
  · exact inv_progress g hInv.nodup hInv.sub hInv.flag hInv.aref hInv.excl
  · exact hInv

theorem inv_kill_progress (g : MafiaGame) (v : PlayerId) (hInv : Inv g)
    (hvm : v ∈ aliveL g) :
    Inv (progress_day (kill_player g v)).1 := by
  have hvlt : v < g.pheap.length := alive_lt_len g v ((hInv.flag v).mp hvm)
  apply inv_progress
  · rw [kill_alive g v hInv.aref]
    exact hInv.nodup.erase v
  · intro p hp
    rw [kill_alive g v hInv.aref] at hp
    by_cases he : g.playersRef = g.aliveRef
    · rw [kill_players_of_eq g v he hInv.aref]
      exact hp
    · rw [kill_players_of_ne g v he]
      exact hInv.sub p (List.mem_of_mem_erase hp)
  · intro p
    rw [kill_alive g v hInv.aref]
    by_cases hpv : p = v
    · subst hpv
      rw [kill_pread_self g p hvlt]
      simp [hInv.nodup.not_mem_erase]
    · rw [kill_pread_ne g v p hpv, hInv.nodup.mem_erase_iff]
      constructor
      · intro hx
        exact (hInv.flag p).mp hx.2
      · intro hx
        exact ⟨hpv, (hInv.flag p).mpr hx⟩
  · rw [(kill_refs g v).1, kill_lists_len g v]
    exact hInv.aref
  · intro i
    by_cases hiv : i = v
    · subst hiv
      rw [kill_pread_self g i hvlt]
      have := hInv.excl i
      simpa using this
    · rw [kill_pread_ne g v i hiv]
      exact hInv.excl i

theorem inv_check (g : MafiaGame) (voted : Option PlayerId) (hInv : Inv g)
    (hv : ∀ v, voted = some v → v ∈ aliveL g) :
    Inv (check_if_day_should_progress g voted).1 := by
  cases voted with
  | none =>
    unfold check_if_day_should_progress
    exact inv_noLynchCheck g hInv
  | some v =>
    unfold check_if_day_should_progress
    split
    · rename_i v2 heq
      injection heq with hv2
      subst hv2
      split
      · show Inv (progress_day (kill_player g v)).1
        exact inv_kill_progress g v hInv (hv v rfl)
      · exact inv_noLynchCheck g hInv
    · rename_i heq
      cases heq

theorem inv_vote_apply (g : MafiaGame) (pid tid : PlayerId) (an tn : String)
    (hInv : Inv g)
    (hpalive : (pread g pid).is_alive = true)
    (htalive : (pread g tid).is_alive = true) :
    Inv (vote_apply g pid tid an tn).1 := by
  have hpid : pid < g.pheap.length := alive_lt_len g pid hpalive
  have pmem : pid ∈ aliveL g := (hInv.flag pid).mpr hpalive
  have tmem : tid ∈ aliveL g := (hInv.flag tid).mpr htalive
  have keysnd : (g.vote_table.map Prod.fst).Nodup := by
    rw [hInv.keys]; exact hInv.nodup
  have tkeys : tid ∈ g.vote_table.map Prod.fst := by
    rw [hInv.keys]; exact tmem
  have hprev : ∀ prev, (pread g pid).votes_for = some prev →
      prev ∈ g.vote_table.map Prod.fst := by
    intro prev hp
    rw [hInv.keys]
    exact hInv.vf_mem pid pmem prev hp
  have halive := vote_apply_alive g pid tid an tn
  have hplayers := vote_apply_players g pid tid an tn
  have htab := vote_apply_table g pid tid an tn hpid
  have hself := vote_apply_pread_self g pid tid an tn hpid
  have hlists := vote_apply_lists g pid tid an tn
  refine ⟨?_, ?_, ?_, ?_, ?_, ?_, ?_, ?_, ?_⟩
  · rw [halive]; exact hInv.nodup
  · intro p hp
    rw [halive] at hp
    rw [hplayers]
    exact hInv.sub p hp
  · intro p
    rw [halive]
    by_cases hp : p = pid
    · subst hp
      rw [hself]
      exact hInv.flag p
    · rw [vote_apply_pread_ne g pid tid p an tn hp]
      exact hInv.flag p
  · rw [hlists.2.1, hlists.1]
    exact hInv.aref
  · rw [htab, halive, tableAfterVote_map_fst]
    exact hInv.keys
  · intro p hp t2 ht2
    rw [halive] at hp ⊢
    by_cases hp2 : p = pid
    · subst hp2
      rw [hself] at ht2
      simp at ht2
      rw [← ht2]
      exact tmem
    · rw [vote_apply_pread_ne g pid tid p an tn hp2] at ht2
      exact hInv.vf_mem p hp t2 ht2
  · intro i
    by_cases hi : i = pid
    · subst hi
      right
      rw [hself]
    · rw [vote_apply_pread_ne g pid tid i an tn hi]
      exact hInv.excl i
  · rw [htab, halive,
      sum_tableAfterVote g.vote_table (pread g pid) tid keysnd tkeys hprev]
    have hf2 : (pread (vote_apply g pid tid an tn).1 pid).votes_for.isSome
        = true := by
      rw [hself]
      rfl
    have hcount := countP_update (aliveL g) hInv.nodup pid pmem
      (fun p => (pread g p).votes_for.isSome)
      (fun p => (pread (vote_apply g pid tid an tn).1 p).votes_for.isSome)
      (fun x hx hxp => by
        show (pread g x).votes_for.isSome =
          (pread (vote_apply g pid tid an tn).1 x).votes_for.isSome
        rw [vote_apply_pread_ne g pid tid x an tn hxp])
    simp only [hf2] at hcount
    rw [hcount, ← hInv.sum_eq]
    by_cases hs : (pread g pid).votes_for.isSome <;> simp [hs]
  · rw [vote_apply_nl g pid tid an tn hpid, halive]
    have hf2 : (pread (vote_apply g pid tid an tn).1 pid).is_no_lynch
        = false := by
      rw [hself]
    have hcount := countP_update (aliveL g) hInv.nodup pid pmem
      (fun p => (pread g p).is_no_lynch)
      (fun p => (pread (vote_apply g pid tid an tn).1 p).is_no_lynch)
      (fun x hx hxp => by
        show (pread g x).is_no_lynch =
          (pread (vote_apply g pid tid an tn).1 x).is_no_lynch
        rw [vote_apply_pread_ne g pid tid x an tn hxp])
    simp only [hf2] at hcount
    rw [hcount, ← hInv.nl_eq]
    by_cases hs : (pread g pid).is_no_lynch <;> simp [hs] <;> ring

/-- The state mutation performed by the success path of vote_no_lynch
(lines 388-396), in the closed form of vote_no_lynch_success. -/
theorem inv_nolynch_mut (g : MafiaGame) (pid : PlayerId) (hInv : Inv g)
    (hpalive : (pread g pid).is_alive = true)
    (hnonl : (pread g pid).is_no_lynch = false) :
    Inv { g with
      pheap := g.pheap.set pid
        { pread g pid with votes_for := none, is_no_lynch := true },
      no_lynch := g.no_lynch + 1,
      vote_table := tableRetract g.vote_table (pread g pid) } := by
  have hpid : pid < g.pheap.length := alive_lt_len g pid hpalive
  have pmem : pid ∈ aliveL g := (hInv.flag pid).mpr hpalive
  have keysnd : (g.vote_table.map Prod.fst).Nodup := by
    rw [hInv.keys]; exact hInv.nodup
  have hprev : ∀ prev, (pread g pid).votes_for = some prev →
      prev ∈ g.vote_table.map Prod.fst := by
    intro prev hp
    rw [hInv.keys]
    exact hInv.vf_mem pid pmem prev hp
  set g2 : MafiaGame := { g with
    pheap := g.pheap.set pid
      { pread g pid with votes_for := none, is_no_lynch := true },
    no_lynch := g.no_lynch + 1,
    vote_table := tableRetract g.vote_table (pread g pid) } with hg2
  have halive : aliveL g2 = aliveL g := rfl
  have hplayers : playersL g2 = playersL g := rfl
  have hself : pread g2 pid =
      { pread g pid with votes_for := none, is_no_lynch := true } := by
    show hread (g.pheap.set pid _) pid = _
    exact hread_set_self g.pheap pid _ hpid
  have hne : ∀ j, j ≠ pid → pread g2 j = pread g j := by
    intro j hj
    show hread (g.pheap.set pid _) j = _
    exact hread_set_ne g.pheap pid j _ hj
  refine ⟨?_, ?_, ?_, ?_, ?_, ?_, ?_, ?_, ?_⟩
  · rw [halive]; exact hInv.nodup
  · intro p hp
    rw [halive] at hp
    rw [hplayers]
    exact hInv.sub p hp
  · intro p
    rw [halive]
    by_cases hp : p = pid
    · subst hp
      rw [hself]
      exact hInv.flag p
    · rw [hne p hp]
      exact hInv.flag p
  · exact hInv.aref
  · show (tableRetract g.vote_table (pread g pid)).map Prod.fst = aliveL g2
    rw [halive, tableRetract_map_fst]
    exact hInv.keys
  · intro p hp t2 ht2
    rw [halive] at hp ⊢
    by_cases hp2 : p = pid
    · subst hp2
      rw [hself] at ht2
      cases ht2
    · rw [hne p hp2] at ht2
      exact hInv.vf_mem p hp t2 ht2
  · intro i
    by_cases hi : i = pid
    · subst hi
      left
      rw [hself]
    · rw [hne i hi]
      exact hInv.excl i
  · show ((tableRetract g.vote_table (pread g pid)).map Prod.snd).sum = _
    rw [sum_tableRetract g.vote_table (pread g pid) keysnd hprev, halive]
    have hf2 : (pread g2 pid).votes_for.isSome = false := by
      rw [hself]
      rfl
    have hcount := countP_update (aliveL g) hInv.nodup pid pmem
      (fun p => (pread g p).votes_for.isSome)
      (fun p => (pread g2 p).votes_for.isSome)
      (fun x hx hxp => by
        show (pread g x).votes_for.isSome = (pread g2 x).votes_for.isSome
        rw [hne x hxp])
    simp only [hf2] at hcount
    rw [hcount, ← hInv.sum_eq]
    by_cases hs : (pread g pid).votes_for.isSome <;> simp [hs] <;> ring
  · show g.no_lynch + 1 = _
    rw [halive]
    have hf2 : (pread g2 pid).is_no_lynch = true := by
      rw [hself]
    have hcount := countP_update (aliveL g) hInv.nodup pid pmem
      (fun p => (pread g p).is_no_lynch)
      (fun p => (pread g2 p).is_no_lynch)
      (fun x hx hxp => by
        show (pread g x).is_no_lynch = (pread g2 x).is_no_lynch
        rw [hne x hxp])
    simp only [hf2, hnonl] at hcount
    rw [hcount, ← hInv.nl_eq]
    simp

theorem inv_vote_to_lynch (g : MafiaGame) (m : Msg) (hInv : Inv g) :
    Inv (vote_to_lynch g m).1 := by
  by_cases hon : g.is_ongoing = true
  · cases hlookA : g.user_to_player.lookup m.author.uid with
    | none =>
      have hst : (vote_to_lynch g m).1 = g := by
        unfold vote_to_lynch
        rw [hon, hlookA]
        simp
      rw [hst]
      exact hInv
    | some pid =>
      by_cases halive : (pread g pid).is_alive = true
      · cases hms : m.mentions with
        | nil =>
          have hst : (vote_to_lynch g m).1 = g := by
            unfold vote_to_lynch
            rw [hon, hlookA, hms]
            simp [halive]
          rw [hst]
          exact hInv
        | cons tu rest =>
          cases hlookT : g.user_to_player.lookup tu.uid with
          | none =>
            have hst : (vote_to_lynch g m).1 = g := by
              unfold vote_to_lynch
              rw [hon, hlookA, hms]
              simp [halive, hlookT]
            rw [hst]
            exact hInv
          | some tid =>
            by_cases htalive : (pread g tid).is_alive = true
            · rw [(vote_to_lynch_success g m pid tid tu rest hon hlookA
                halive hms hlookT htalive).1]
              apply inv_check _ (some tid)
                (inv_vote_apply g pid tid m.author.uname tu.uname hInv
                  halive htalive)
              intro v hv
              injection hv with hv
              subst hv
              rw [vote_apply_alive]
              exact (hInv.flag tid).mpr htalive
            · have hdead : (pread g tid).is_alive = false := by
                simpa using htalive
              have hst : (vote_to_lynch g m).1 = g := by
                unfold vote_to_lynch
                rw [hon, hlookA, hms]
                simp [halive, hlookT, hdead]
              rw [hst]
              exact hInv
      · have hdead : (pread g pid).is_alive = false := by
          simpa using halive
        have hst : (vote_to_lynch g m).1 = g := by
          unfold vote_to_lynch
          rw [hon, hlookA]
          simp [hdead]
        rw [hst]
        exact hInv
  · have hoff : g.is_ongoing = false := by simpa using hon
    have hst : (vote_to_lynch g m).1 = g := by
      unfold vote_to_lynch
      simp [hoff]
    rw [hst]
    exact hInv

theorem inv_vote_no_lynch (g : MafiaGame) (m : Msg) (hInv : Inv g) :
    Inv (vote_no_lynch g m).1 := by
  by_cases hon : g.is_ongoing = true
  · cases hlook : g.user_to_player.lookup m.author.uid with
    | none =>
      have hst : (vote_no_lynch g m).1 = g := by
        unfold vote_no_lynch
        rw [hon, hlook]
        simp
      rw [hst]
      exact hInv
    | some pid =>
      by_cases halive : (pread g pid).is_alive = true
      · by_cases hnl2 : (pread g pid).is_no_lynch = true
        · have hst : (vote_no_lynch g m).1 = g := by
            unfold vote_no_lynch
            rw [hon, hlook]
            simp [halive, hnl2]
          rw [hst]
          exact hInv
        · have hnonl : (pread g pid).is_no_lynch = false := by
            simpa using hnl2
          have hpid : pid < g.pheap.length := alive_lt_len g pid halive
          rw [vote_no_lynch_success g m pid hon hlook halive hnonl hpid]
          apply inv_check _ none
            (inv_nolynch_mut g pid hInv halive hnonl)
          intro v hv
          exact Option.noConfusion hv
      · have hdead : (pread g pid).is_alive = false := by
          simpa using halive
        have hst : (vote_no_lynch g m).1 = g := by
          unfold vote_no_lynch
          rw [hon, hlook]
          simp [hdead]
        rw [hst]
        exact hInv
  · have hoff : g.is_ongoing = false := by simpa using hon
    have hst : (vote_no_lynch g m).1 = g := by
      unfold vote_no_lynch
      simp [hoff]
    rw [hst]
    exact hInv

/- ------------------------------------------------------------------ -/
/- Sequences of voting operations.                                     -/
/- ------------------------------------------------------------------ -/

/-- A vote-affecting inbound event: a lynch vote or a no-lynch vote. -/
inductive VOp where
  | lynch (m : Msg)
  | nolynch (m : Msg)

/-- Dispatch one inbound vote event to its handler, keeping the state. -/
def applyOp (g : MafiaGame) : VOp → MafiaGame
  | .lynch m => (vote_to_lynch g m).1
  | .nolynch m => (vote_no_lynch g m).1

/-- Run a sequence of inbound vote events. -/
def runOps (g : MafiaGame) (ops : List VOp) : MafiaGame :=
  ops.foldl applyOp g

theorem inv_applyOp (g : MafiaGame) (op : VOp) (hInv : Inv g) :
    Inv (applyOp g op) := by
  cases op with
  | lynch m => exact inv_vote_to_lynch g m hInv
  | nolynch m => exact inv_vote_no_lynch g m hInv

theorem inv_runOps (g : MafiaGame) (ops : List VOp) (hInv : Inv g) :
    Inv (runOps g ops) := by
  induction ops generalizing g with
  | nil => exact hInv
  | cons op ops ih => exact ih (applyOp g op) (inv_applyOp g op hInv)

/-- A state whose vote table has just been (re)built by make_vote_table /
progress_day: the tally maps exactly the alive players to 0, the no-lynch
counter is 0, every alive player has no standing vote and no standing
no-lynch choice, and the roster bookkeeping is sane (alive is duplicate-free,
lies inside the roster list, and matches the is_alive flags; dead heap
entries never hold a vote and a no-lynch mark at once). -/
def FreshStart (g : MafiaGame) : Prop :=
  (aliveL g).Nodup ∧
  (∀ p ∈ aliveL g, p ∈ playersL g) ∧
  (∀ p ∈ aliveL g, (pread g p).is_alive = true) ∧
  (∀ p, p < g.pheap.length → (pread g p).is_alive = true → p ∈ aliveL g) ∧
  g.aliveRef < g.lists.length ∧
  g.vote_table = (aliveL g).map (fun p => (p, 0)) ∧
  g.no_lynch = 0 ∧
  (∀ p ∈ aliveL g, (pread g p).votes_for = none ∧
    (pread g p).is_no_lynch = false) ∧
  (∀ i, i < g.pheap.length → ((pread g i).votes_for = none ∨
    (pread g i).is_no_lynch = false))

instance (g : MafiaGame) : Decidable (FreshStart g) := by
  unfold FreshStart
  infer_instance

theorem freshStart_inv (g : MafiaGame) (h : FreshStart g) : Inv g := by
  obtain ⟨hnd, hsub, hflag1, hflag2, haref, htab, hnl, hcln, hexcl⟩ := h
  refine ⟨hnd, hsub, ?_, haref, ?_, ?_, ?_, ?_, ?_⟩
  · intro p
    constructor
    · exact hflag1 p
    · intro hp
      exact hflag2 p (alive_lt_len g p hp) hp
  · rw [htab, map_fst_zeros]
  · intro p hp t2 ht2
    rw [(hcln p hp).1] at ht2
    cases ht2
  · intro i
    by_cases hi : i < g.pheap.length
    · exact hexcl i hi
    · left
      unfold pread
      rw [hread_ge g.pheap i (Nat.le_of_not_lt hi)]
      rfl
  · rw [htab, sum_snd_zeros]
    have hz : (aliveL g).countP
        (fun p => (pread g p).votes_for.isSome) = 0 := by
      apply List.countP_eq_zero.mpr
      intro a ha
      rw [(hcln a ha).1]
      simp
    rw [hz]
    simp
  · rw [hnl]
    have hz : (aliveL g).countP (fun p => (pread g p).is_no_lynch) = 0 := by
      apply List.countP_eq_zero.mpr
      intro a ha
      rw [(hcln a ha).2]
      simp
    rw [hz]
    simp

/- ------------------------------------------------------------------ -/
/- Branch equations for check_if_day_should_progress.                  -/
/- ------------------------------------------------------------------ -/

theorem check_none_eq (g : MafiaGame) :
    check_if_day_should_progress g none = noLynchCheck g := rfl

theorem check_some_eq (g : MafiaGame) (v : PlayerId) :
    check_if_day_should_progress g (some v) =
      (if vtLookup g.vote_table v ≥
          ((g.vote_table.length / 2 : Nat) : Int) + 1 then
        ((progress_day (kill_player g v)).1,
         Event.msg (Dest.channel g.gen_channel)
           (if g.day_phase = "Day"
            then "<@" ++ toString (pread g v).uid ++ "> has been lynched!"
            else "<@" ++ toString (pread g v).uid ++ "> has been killed!")
           :: (progress_day (kill_player g v)).2)
      else noLynchCheck g) := rfl

theorem noLynchCheck_eq (g : MafiaGame) :
    noLynchCheck g =
      (if g.no_lynch ≥ ((((aliveL g).length + 1) / 2 : Nat) : Int) then
        ((progress_day g).1,
         Event.msg (Dest.channel g.gen_channel)
           "The town has voted for no lynch!" :: (progress_day g).2)
      else (g, [])) := rfl

/- ------------------------------------------------------------------ -/
/- C1: majority resolution.                                            -/
/- ------------------------------------------------------------------ -/

/-- C1: after every vote-affecting operation, majority is evaluated in
order: if a target was just voted on and that target's tally count is at
least floor(aliveCount/2)+1, the target is marked dead (is_alive false,
removed from alive) and a phase transition is triggered; otherwise, if the
no-lynch counter is at least ceil(aliveCount/2), a phase transition is
triggered with no elimination; otherwise no transition occurs.  The
lynch-target check fires first and short-circuits the no-lynch check, so at
most one rule fires - witnessed by the exact event traces of the three
branches. -/
theorem majority_resolution (g : MafiaGame) (voted : Option PlayerId)
    (hlen : g.vote_table.length = (aliveL g).length)
    (hnd : (aliveL g).Nodup)
    (haref : g.aliveRef < g.lists.length)
    (hvb : ∀ v, voted = some v → v ∈ aliveL g ∧ v < g.pheap.length) :
    (∀ v, voted = some v →
      vtLookup g.vote_table v ≥ (((aliveL g).length / 2 : Nat) : Int) + 1 →
        (pread (check_if_day_should_progress g voted).1 v).is_alive = false ∧
        v ∉ aliveL (check_if_day_should_progress g voted).1 ∧
        (check_if_day_should_progress g voted).1.day_phase ≠ g.day_phase ∧
        (check_if_day_should_progress g voted).2 =
          [Event.msg (Dest.channel g.gen_channel)
            (if g.day_phase = "Day"
             then "<@" ++ toString (pread g v).uid ++ "> has been lynched!"
             else "<@" ++ toString (pread g v).uid ++ "> has been killed!"),
           Event.msg (Dest.channel g.gen_channel)
            ("It is now " ++ (if g.day_phase = "Day" then "Night" else "Day")
              ++ " " ++ toString (if g.day_phase = "Day" then g.day_num
                else g.day_num + 1) ++ ".")]) ∧
    ((∀ v, voted = some v →
        vtLookup g.vote_table v < (((aliveL g).length / 2 : Nat) : Int) + 1) →
      g.no_lynch ≥ ((((aliveL g).length + 1) / 2 : Nat) : Int) →
        (check_if_day_should_progress g voted).1.day_phase ≠ g.day_phase ∧
        aliveL (check_if_day_should_progress g voted).1 = aliveL g ∧
        (∀ q, (pread (check_if_day_should_progress g voted).1 q).is_alive =
          (pread g q).is_alive) ∧
        (check_if_day_should_progress g voted).2 =
          [Event.msg (Dest.channel g.gen_channel)
            "The town has voted for no lynch!",
           Event.msg (Dest.channel g.gen_channel)
            ("It is now " ++ (if g.day_phase = "Day" then "Night" else "Day")
              ++ " " ++ toString (if g.day_phase = "Day" then g.day_num
                else g.day_num + 1) ++ ".")]) ∧
    ((∀ v, voted = some v →
        vtLookup g.vote_table v < (((aliveL g).length / 2 : Nat) : Int) + 1) →
      g.no_lynch < ((((aliveL g).length + 1) / 2 : Nat) : Int) →
        (check_if_day_should_progress g voted).1 = g ∧
        (check_if_day_should_progress g voted).2 = []) := by
  have hnlfire : g.no_lynch ≥ ((((aliveL g).length + 1) / 2 : Nat) : Int) →
      (noLynchCheck g).1.day_phase ≠ g.day_phase ∧
      aliveL (noLynchCheck g).1 = aliveL g ∧
      (∀ q, (pread (noLynchCheck g).1 q).is_alive = (pread g q).is_alive) ∧
      (noLynchCheck g).2 =
        [Event.msg (Dest.channel g.gen_channel)
          "The town has voted for no lynch!",
         Event.msg (Dest.channel g.gen_channel)
          ("It is now " ++ (if g.day_phase = "Day" then "Night" else "Day")
            ++ " " ++ toString (if g.day_phase = "Day" then g.day_num
              else g.day_num + 1) ++ ".")] := by
    intro hge
    rw [noLynchCheck_eq, if_pos hge]
    refine ⟨progress_day_phase_ne g, progress_day_alive g, ?_, ?_⟩
    · intro q
      exact progress_pread_alive g q
    · rw [progress_day_events]
  have hnlskip : g.no_lynch < ((((aliveL g).length + 1) / 2 : Nat) : Int) →
      (noLynchCheck g).1 = g ∧ (noLynchCheck g).2 = [] := by
    intro hlt
    rw [noLynchCheck_eq, if_neg (not_le.mpr hlt)]
    exact ⟨rfl, rfl⟩
  cases voted with
  | none =>
    rw [check_none_eq]
    refine ⟨?_, ?_, ?_⟩
    · intro v hv
      cases hv
    · intro _ hge
      exact hnlfire hge
    · intro _ hlt
      exact hnlskip hlt
  | some v =>
    obtain ⟨hvm, hvlt⟩ := hvb v rfl
    rw [check_some_eq]
    refine ⟨?_, ?_, ?_⟩
    · intro v2 hv2 hge
      injection hv2 with hv2
      subst hv2
      rw [if_pos (by rw [hlen]; exact hge)]
      refine ⟨?_, ?_, ?_, ?_⟩
      · rw [progress_pread_alive, kill_pread_self g v hvlt]
      · rw [progress_day_alive, kill_alive g v haref]
        exact hnd.not_mem_erase
      · have hph := progress_day_phase_ne (kill_player g v)
        rw [(kill_misc g v).2.1] at hph
        exact hph
      · rw [progress_day_events]
        rw [(kill_misc g v).2.2.2.1, (kill_misc g v).2.1,
          (kill_misc g v).2.2.1]
    · intro hlt hge
      rw [if_neg (by rw [hlen]; exact not_le.mpr (hlt v rfl))]
      exact hnlfire hge
    · intro hlt hlt2
      rw [if_neg (by rw [hlen]; exact not_le.mpr (hlt v rfl))]
      exact hnlskip hlt2

/- ------------------------------------------------------------------ -/
/- Concrete test fixtures.                                             -/
/- ------------------------------------------------------------------ -/

def uA : DUser := ⟨10, "alice"⟩
def uB : DUser := ⟨11, "bob"⟩
def uC : DUser := ⟨12, "carol"⟩

/-- A three-player game at the start of Day 1, right after progress_day
rebuilt the tally; self.alive and self.players share list object 0, exactly
as give_roles leaves them. -/
def demoFresh : MafiaGame :=
  { timeout := 10, is_accepting := false, is_ongoing := true,
    lists := [[0, 1, 2]], playersRef := 0, aliveRef := 0,
    pheap := [⟨10, "alice", some "Townie", true, none, false⟩,
              ⟨11, "bob", some "Mafia ", true, none, false⟩,
              ⟨12, "carol", some "Townie", true, none, false⟩],
    townies := [0, 2], mafia := [1], rolesKeys := ["mafia", "town"],
    day_num := 1, day_phase := "Day", no_lynch := 0,
    vote_table := [(0, 0), (1, 0), (2, 0)],
    user_to_player := [(10, 0), (11, 1), (12, 2)], gen_channel := some 1 }

/-- Two successful vote events: alice votes bob, then bob votes no-lynch. -/
def demoOps : List VOp :=
  [VOp.lynch ⟨uA, [], [uB], some 1⟩, VOp.nolynch ⟨uB, [], [], some 1⟩]

/-- demoFresh with a tally in which player 0 already holds two votes. -/
def demoC1 : MafiaGame := { demoFresh with vote_table := [(0, 2), (1, 1), (2, 0)] }

theorem majority_resolution_witness :
    (pread (check_if_day_should_progress demoC1 (some 0)).1 0).is_alive
      = false ∧
    0 ∉ aliveL (check_if_day_should_progress demoC1 (some 0)).1 ∧
    (check_if_day_should_progress demoC1 (some 0)).1.day_phase ≠
      demoC1.day_phase := by
  have h := (majority_resolution demoC1 (some 0) (by decide) (by decide)
    (by decide)
    (fun v hv => by
      injection hv with h2
      subst h2
      exact ⟨by decide, by decide⟩)).1 0 rfl (by decide)
  exact ⟨h.1, h.2.1, h.2.2.1⟩

/- ------------------------------------------------------------------ -/
/- C4: tally invariants over vote sequences.                           -/
/- ------------------------------------------------------------------ -/

/-- C4: after any sequence of vote_to_lynch and vote_no_lynch events (in
particular any sequence of successful ones) starting from a freshly built
vote table, the sum of all vote-table counts equals the number of alive
players whose votes_for is non-null, the no_lynch counter equals the number
of alive players with is_no_lynch true, and no player ever has both
votes_for non-null and is_no_lynch true at the same time. -/
theorem tally_invariants (g0 : MafiaGame) (ops : List VOp)
    (h : FreshStart g0) :
    ((runOps g0 ops).vote_table.map Prod.snd).sum =
      (((aliveL (runOps g0 ops)).countP
        (fun p => (pread (runOps g0 ops) p).votes_for.isSome) : Nat) : Int) ∧
    (runOps g0 ops).no_lynch =
      (((aliveL (runOps g0 ops)).countP
        (fun p => (pread (runOps g0 ops) p).is_no_lynch) : Nat) : Int) ∧
    (∀ i, ¬((pread (runOps g0 ops) i).votes_for.isSome = true ∧
      (pread (runOps g0 ops) i).is_no_lynch = true)) := by
  have hI := inv_runOps g0 ops (freshStart_inv g0 h)
  refine ⟨hI.sum_eq, hI.nl_eq, ?_⟩
  intro i hcon
  rcases hI.excl i with hx | hx
  · rw [hx] at hcon
    simp at hcon
  · rw [hx] at hcon
    simp at hcon

theorem tally_invariants_witness :
    FreshStart demoFresh ∧
    ((runOps demoFresh demoOps).vote_table.map Prod.snd).sum =
      (((aliveL (runOps demoFresh demoOps)).countP
        (fun p => (pread (runOps demoFresh demoOps) p).votes_for.isSome)
          : Nat) : Int) :=
  ⟨by decide, (tally_invariants demoFresh demoOps (by decide)).1⟩

/- ------------------------------------------------------------------ -/
/- C6: the phase transition and its reset.                             -/
/- ------------------------------------------------------------------ -/

/-- C6: progress_day flips the phase between Night and Day, increments
day_num only on the Night-to-Day transition, and on every transition leaves
every roster player's votes_for null and is_no_lynch false, resets the
no-lynch counter to 0, and rebuilds the vote table so that its key set
equals exactly the current alive set with every count 0. -/
theorem progress_day_reset (g : MafiaGame) :
    (g.day_phase = "Day" → (progress_day g).1.day_phase = "Night" ∧
      (progress_day g).1.day_num = g.day_num) ∧
    (g.day_phase = "Night" → (progress_day g).1.day_phase = "Day" ∧
      (progress_day g).1.day_num = g.day_num + 1) ∧
    (∀ p, p ∈ playersL (progress_day g).1 →
      (pread (progress_day g).1 p).votes_for = none ∧
      (pread (progress_day g).1 p).is_no_lynch = false) ∧
    (progress_day g).1.no_lynch = 0 ∧
    aliveL (progress_day g).1 = aliveL g ∧
    (progress_day g).1.vote_table.map Prod.fst =
      aliveL (progress_day g).1 ∧
    (∀ kv, kv ∈ (progress_day g).1.vote_table → kv.2 = 0) := by
  refine ⟨?_, ?_, ?_, progress_day_nl g, progress_day_alive g, ?_, ?_⟩
  · intro h
    rw [progress_day_phase, progress_day_num]
    simp [h]
  · intro h
    rw [progress_day_phase, progress_day_num]
    rw [h]
    simp
  · intro p hp
    rw [progress_day_players] at hp
    rw [progress_day_pread]
    simp [hp, pclear]
  · rw [progress_day_table, progress_day_alive, map_fst_zeros]
  · intro kv hkv
    rw [progress_day_table] at hkv
    simp at hkv
    obtain ⟨p, hp, hkv⟩ := hkv
    rw [← hkv]

theorem progress_day_reset_witness :
    ((progress_day demoC1).1.day_phase = "Night" ∧
      (progress_day demoC1).1.day_num = demoC1.day_num) ∧
    (progress_day demoC1).1.no_lynch = 0 := by
  have h := progress_day_reset demoC1
  exact ⟨h.1 (by decide), h.2.2.2.1⟩

/- ------------------------------------------------------------------ -/
/- C5: switching a vote.                                               -/
/- ------------------------------------------------------------------ -/

/-- C5: for a voter with a standing vote for A who successfully votes for
B, the tally mutation of the vote (lines 356-367 of vote_to_lynch, the
vote_apply step run before the majority evaluation) decrements A's count by
one, increments B's count by one, repoints the voter's votes_for to B,
leaves the total sum of all vote-table counts unchanged, and the voter
contributes nothing to A's count afterwards. -/
theorem vote_switch (g : MafiaGame) (pid A B : PlayerId) (an tn : String)
    (hvA : (pread g pid).votes_for = some A)
    (hAB : A ≠ B)
    (hAk : A ∈ g.vote_table.map Prod.fst)
    (hBk : B ∈ g.vote_table.map Prod.fst)
    (hknd : (g.vote_table.map Prod.fst).Nodup)
    (hpid : pid < g.pheap.length) :
    vtLookup (vote_apply g pid B an tn).1.vote_table A =
      vtLookup g.vote_table A - 1 ∧
    vtLookup (vote_apply g pid B an tn).1.vote_table B =
      vtLookup g.vote_table B + 1 ∧
    (pread (vote_apply g pid B an tn).1 pid).votes_for = some B ∧
    ((vote_apply g pid B an tn).1.vote_table.map Prod.snd).sum =
      (g.vote_table.map Prod.snd).sum ∧
    (pread (vote_apply g pid B an tn).1 pid).votes_for ≠ some A := by
  have htab := vote_apply_table g pid B an tn hpid
  have hself := vote_apply_pread_self g pid B an tn hpid
  have htr : tableAfterVote g.vote_table (pread g pid) B =
      vtAdd (vtAdd g.vote_table A (-1)) B 1 := by
    unfold tableAfterVote tableRetract
    rw [hvA]
  have hBk2 : B ∈ (vtAdd g.vote_table A (-1)).map Prod.fst := by
    rw [vtAdd_map_fst]
    exact hBk
  have hnd2 : ((vtAdd g.vote_table A (-1)).map Prod.fst).Nodup := by
    rw [vtAdd_map_fst]
    exact hknd
  refine ⟨?_, ?_, ?_, ?_, ?_⟩
  · rw [htab, htr, vtLookup_vtAdd_ne _ B A 1 hAB,
      vtLookup_vtAdd_self g.vote_table A (-1) hAk]
    ring
  · rw [htab, htr, vtLookup_vtAdd_self _ B 1 hBk2,
      vtLookup_vtAdd_ne g.vote_table A B (-1) (fun hc => hAB hc.symm)]
  · rw [hself]
  · rw [htab, htr, sum_vtAdd _ B 1 hBk2 hnd2,
      sum_vtAdd g.vote_table A (-1) hAk hknd]
    ring
  · rw [hself]
    simp
    exact fun hc => hAB hc.symm

/-- demoFresh in which alice (player 0) already votes for bob (player 1). -/
def demoC5 : MafiaGame := { demoFresh with
  pheap := [⟨10, "alice", some "Townie", true, some 1, false⟩,
            ⟨11, "bob", some "Mafia ", true, none, false⟩,
            ⟨12, "carol", some "Townie", true, none, false⟩],
  vote_table := [(0, 0), (1, 1), (2, 0)] }

theorem vote_switch_witness :
    vtLookup (vote_apply demoC5 0 2 "alice" "carol").1.vote_table 1 =
      vtLookup demoC5.vote_table 1 - 1 ∧
    vtLookup (vote_apply demoC5 0 2 "alice" "carol").1.vote_table 2 =
      vtLookup demoC5.vote_table 2 + 1 ∧
    ((vote_apply demoC5 0 2 "alice" "carol").1.vote_table.map
      Prod.snd).sum = (demoC5.vote_table.map Prod.snd).sum := by
  have h := vote_switch demoC5 0 1 2 "alice" "carol" (by decide) (by decide)
    (by decide) (by decide) (by decide) (by decide)
  exact ⟨h.1, h.2.1, h.2.2.2.1⟩

/- ------------------------------------------------------------------ -/
/- C9: self-voting.                                                    -/
/- ------------------------------------------------------------------ -/

/-- C9: a vote by an alive in-game player naming themself as the target
passes all validation (outcome voted), increments their own vote-table
entry, points their votes_for at themself, and the incremented count
participates in the floor(aliveCount/2)+1 majority test - reaching it marks
the voter dead. -/
theorem self_vote_allowed (g : MafiaGame) (m : Msg) (pid : PlayerId)
    (hon : g.is_ongoing = true)
    (hlook : g.user_to_player.lookup m.author.uid = some pid)
    (halive : (pread g pid).is_alive = true)
    (hm1 : m.mentions ≠ [])
    (hm2 : (m.mentions.headD default).uid = m.author.uid)
    (hprev : (pread g pid).votes_for = none)
    (hinl : (pread g pid).is_no_lynch = false)
    (hmem : pid ∈ aliveL g)
    (hnd : (aliveL g).Nodup)
    (haref : g.aliveRef < g.lists.length)
    (hkeys : g.vote_table.map Prod.fst = aliveL g)
    (hlen : g.vote_table.length = (aliveL g).length)
    (hnl : g.no_lynch < ((((aliveL g).length + 1) / 2 : Nat) : Int)) :
    (vote_to_lynch g m).2.2 = VoteOutcome.voted ∧
    (vtLookup g.vote_table pid + 1 ≥
        (((aliveL g).length / 2 : Nat) : Int) + 1 →
      (pread (vote_to_lynch g m).1 pid).is_alive = false ∧
      pid ∉ aliveL (vote_to_lynch g m).1) ∧
    (vtLookup g.vote_table pid + 1 <
        (((aliveL g).length / 2 : Nat) : Int) + 1 →
      (pread (vote_to_lynch g m).1 pid).votes_for = some pid ∧
      vtLookup (vote_to_lynch g m).1.vote_table pid =
        vtLookup g.vote_table pid + 1) := by
  cases hms : m.mentions with
  | nil => exact absurd hms hm1
  | cons tu rest =>
    have htu : tu.uid = m.author.uid := by
      rw [hms] at hm2
      simpa using hm2
    have hlookT : g.user_to_player.lookup tu.uid = some pid := by
      rw [htu]
      exact hlook
    have hs := vote_to_lynch_success g m pid pid tu rest hon hlook halive
      hms hlookT halive
    have hpid : pid < g.pheap.length := alive_lt_len g pid halive
    have htab : (vote_apply g pid pid m.author.uname tu.uname).1.vote_table =
        vtAdd g.vote_table pid 1 := by
      rw [vote_apply_table g pid pid _ _ hpid]
      unfold tableAfterVote tableRetract
      rw [hprev]
    have hcnt : vtLookup
        (vote_apply g pid pid m.author.uname tu.uname).1.vote_table pid =
        vtLookup g.vote_table pid + 1 := by
      rw [htab]
      exact vtLookup_vtAdd_self _ pid 1 (by rw [hkeys]; exact hmem)
    have hlen4 : (vote_apply g pid pid
        m.author.uname tu.uname).1.vote_table.length = (aliveL g).length := by
      rw [htab, vtAdd_length, hlen]
    have halive4 : aliveL (vote_apply g pid pid m.author.uname tu.uname).1 =
        aliveL g := vote_apply_alive g pid pid _ _
    have hl4 := vote_apply_lists g pid pid m.author.uname tu.uname
    have haref4 : (vote_apply g pid pid m.author.uname
        tu.uname).1.aliveRef <
        (vote_apply g pid pid m.author.uname tu.uname).1.lists.length := by
      rw [hl4.2.1, hl4.1]
      exact haref
    have hpid4 : pid <
        (vote_apply g pid pid m.author.uname tu.uname).1.pheap.length := by
      rw [vote_apply_len]
      exact hpid
    have hnl4 : (vote_apply g pid pid m.author.uname tu.uname).1.no_lynch =
        g.no_lynch := by
      rw [vote_apply_nl g pid pid _ _ hpid, hinl]
      simp
    refine ⟨hs.2, ?_, ?_⟩
    · intro hge
      have hcond : vtLookup
          (vote_apply g pid pid m.author.uname tu.uname).1.vote_table pid ≥
          (((vote_apply g pid pid
            m.author.uname tu.uname).1.vote_table.length / 2 : Nat) : Int)
            + 1 := by
        rw [hcnt, hlen4]
        exact hge
      rw [hs.1, check_some_eq, if_pos hcond]
      constructor
      · rw [progress_pread_alive, kill_pread_self _ pid hpid4]
      · rw [progress_day_alive, kill_alive _ pid haref4, halive4]
        exact hnd.not_mem_erase
    · intro hlt
      have hcond : ¬ (vtLookup
          (vote_apply g pid pid m.author.uname tu.uname).1.vote_table pid ≥
          (((vote_apply g pid pid
            m.author.uname tu.uname).1.vote_table.length / 2 : Nat) : Int)
            + 1) := by
        rw [hcnt, hlen4]
        exact not_le.mpr hlt
      have hcond2 : ¬ ((vote_apply g pid pid
          m.author.uname tu.uname).1.no_lynch ≥
          ((((aliveL (vote_apply g pid pid
            m.author.uname tu.uname).1).length + 1) / 2 : Nat) : Int)) := by
        rw [hnl4, halive4]
        exact not_le.mpr hnl
      rw [hs.1, check_some_eq, if_neg hcond, noLynchCheck_eq, if_neg hcond2]
      constructor
      · rw [vote_apply_pread_self g pid pid _ _ hpid]
      · exact hcnt

/-- A one-player game: the sole survivor can vote for themself and that
single vote already meets floor(1/2)+1 = 1. -/
def demoC9 : MafiaGame :=
  { timeout := 10, is_accepting := false, is_ongoing := true,
    lists := [[0]], playersRef := 0, aliveRef := 0,
    pheap := [⟨99, "zed", some "Townie", true, none, false⟩],
    townies := [0], mafia := [], rolesKeys := ["mafia", "town"],
    day_num := 1, day_phase := "Day", no_lynch := 0,
    vote_table := [(0, 0)], user_to_player := [(99, 0)],
    gen_channel := some 1 }

def demoC9msg : Msg := ⟨⟨99, "zed"⟩, [], [⟨99, "zed"⟩], some 1⟩

theorem self_vote_allowed_witness :
    (vote_to_lynch demoC9 demoC9msg).2.2 = VoteOutcome.voted ∧
    (pread (vote_to_lynch demoC9 demoC9msg).1 0).is_alive = false := by
  have h := self_vote_allowed demoC9 demoC9msg 0 (by decide) (by decide)
    (by decide) (by decide) (by decide) (by decide) (by decide) (by decide)
    (by decide) (by decide) (by decide) (by decide) (by decide)
  exact ⟨h.1, (h.2.1 (by decide)).1⟩

/- ------------------------------------------------------------------ -/
/- C3: validation order and failure behaviour of vote_to_lynch.        -/
/- ------------------------------------------------------------------ -/

/-- C3: vote_to_lynch validates, in order: voter known, voter alive, a
target mentioned, target known, target alive.  Each failure outcome is
characterised exactly by the first failing check in that order, and on any
validation failure the state is returned unchanged and exactly one message
is sent to the channel. -/
theorem vote_to_lynch_validation (g : MafiaGame) (m : Msg)
    (hon : g.is_ongoing = true) :
    ((vote_to_lynch g m).2.2 = VoteOutcome.notInGame ↔
      g.user_to_player.lookup m.author.uid = none) ∧
    ((vote_to_lynch g m).2.2 = VoteOutcome.voterDead ↔
      ∃ pid, g.user_to_player.lookup m.author.uid = some pid ∧
        (pread g pid).is_alive = false) ∧
    ((vote_to_lynch g m).2.2 = VoteOutcome.noTarget ↔
      (∃ pid, g.user_to_player.lookup m.author.uid = some pid ∧
        (pread g pid).is_alive = true) ∧ m.mentions = []) ∧
    ((vote_to_lynch g m).2.2 = VoteOutcome.targetNotInGame ↔
      ∃ pid tu rest, g.user_to_player.lookup m.author.uid = some pid ∧
        (pread g pid).is_alive = true ∧ m.mentions = tu :: rest ∧
        g.user_to_player.lookup tu.uid = none) ∧
    ((vote_to_lynch g m).2.2 = VoteOutcome.targetDead ↔
      ∃ pid tu rest tid, g.user_to_player.lookup m.author.uid = some pid ∧
        (pread g pid).is_alive = true ∧ m.mentions = tu :: rest ∧
        g.user_to_player.lookup tu.uid = some tid ∧
        (pread g tid).is_alive = false) ∧
    ((vote_to_lynch g m).2.2 ≠ VoteOutcome.voted →
      (vote_to_lynch g m).1 = g ∧
      ∃ s, (vote_to_lynch g m).2.1 =
        [Event.msg (Dest.channel g.gen_channel) s]) := by
  cases hlookA : g.user_to_player.lookup m.author.uid with
  | none =>
    have hst : vote_to_lynch g m =
        (g, [Event.msg (Dest.channel g.gen_channel)
          "Sorry, you are not part of the current game."],
         VoteOutcome.notInGame) := by
      unfold vote_to_lynch
      rw [hon, hlookA]
      simp
    rw [hst]
    refine ⟨?_, ?_, ?_, ?_, ?_, ?_⟩
    · simp
    · simp [hlookA]
    · simp [hlookA]
    · simp [hlookA]
    · simp [hlookA]
    · intro _
      exact ⟨rfl, _, rfl⟩
  | some pid =>
    by_cases halive : (pread g pid).is_alive = true
    · cases hms : m.mentions with
      | nil =>
        have hst : vote_to_lynch g m =
            (g, [Event.msg (Dest.channel g.gen_channel)
              "You have to vote for someone! (Or no-lynch!)"],
             VoteOutcome.noTarget) := by
          unfold vote_to_lynch
          rw [hon, hlookA, hms]
          simp [halive]
        rw [hst]
        refine ⟨?_, ?_, ?_, ?_, ?_, ?_⟩
        · simp [hlookA]
        · simp [hlookA, halive]
        · simp [hlookA, halive, hms]
        · simp [hms]
        · simp [hms]
        · intro _
          exact ⟨rfl, _, rfl⟩
      | cons tu rest =>
        cases hlookT : g.user_to_player.lookup tu.uid with
        | none =>
          have hst : vote_to_lynch g m =
              (g, [Event.msg (Dest.channel g.gen_channel)
                "That player is not in the game."],
               VoteOutcome.targetNotInGame) := by
            unfold vote_to_lynch
            rw [hon, hlookA, hms]
            simp [halive, hlookT]
          rw [hst]
          refine ⟨?_, ?_, ?_, ?_, ?_, ?_⟩
          · simp [hlookA]
          · simp [hlookA, halive]
          · simp [hms]
          · constructor
            · intro _
              exact ⟨pid, tu, rest, rfl, halive, rfl, hlookT⟩
            · intro _
              rfl
          · simp [hlookA, halive, hms, hlookT]
          · intro _
            exact ⟨rfl, _, rfl⟩
        | some tid =>
          by_cases htalive : (pread g tid).is_alive = true
          · have hs := vote_to_lynch_success g m pid tid tu rest hon hlookA
              halive hms hlookT htalive
            rw [hs.2]
            refine ⟨?_, ?_, ?_, ?_, ?_, ?_⟩
            · simp [hlookA]
            · simp [hlookA, halive]
            · simp [hms]
            · simp [hlookA, halive, hms, hlookT]
              exact ⟨tid, lookup_mem _ _ _ hlookT⟩
            · simp [hlookA, halive, hms, hlookT, htalive]
            · intro h2
              exact absurd rfl h2
          · have hdeadT : (pread g tid).is_alive = false := by
              simpa using htalive
            have hst : vote_to_lynch g m =
                (g, [Event.msg (Dest.channel g.gen_channel)
                  "You have to vote for someone alive!"],
                 VoteOutcome.targetDead) := by
              unfold vote_to_lynch
              rw [hon, hlookA, hms]
              simp [halive, hlookT, hdeadT]
            rw [hst]
            refine ⟨?_, ?_, ?_, ?_, ?_, ?_⟩
            · simp [hlookA]
            · simp [hlookA, halive]
            · simp [hms]
            · simp [hlookA, halive, hms, hlookT]
              exact ⟨tid, lookup_mem _ _ _ hlookT⟩
            · constructor
              · intro _
                exact ⟨pid, tu, rest, tid, rfl, halive, rfl, hlookT, hdeadT⟩
              · intro _
                rfl
            · intro _
              exact ⟨rfl, _, rfl⟩
    · have hdead : (pread g pid).is_alive = false := by
        simpa using halive
      have hst : vote_to_lynch g m =
          (g, [Event.msg (Dest.channel g.gen_channel)
            ("Sorry, <@" ++ toString (pread g pid).uid ++
              ">. You\x27re dead.")],
           VoteOutcome.voterDead) := by
        unfold vote_to_lynch
        rw [hon, hlookA]
        simp [hdead]
      rw [hst]
      refine ⟨?_, ?_, ?_, ?_, ?_, ?_⟩
      · simp [hlookA]
      · constructor
        · intro _
          exact ⟨pid, rfl, hdead⟩
        · intro _
          rfl
      · simp [hlookA, hdead]
      · simp [hlookA, hdead]
      · simp [hlookA, hdead]
      · intro _
        exact ⟨rfl, _, rfl⟩

def demoC3msg : Msg := ⟨⟨77, "mallory"⟩, [], [], some 1⟩

theorem vote_to_lynch_validation_witness :
    (vote_to_lynch demoFresh demoC3msg).2.2 = VoteOutcome.notInGame ∧
    (vote_to_lynch demoFresh demoC3msg).1 = demoFresh := by
  have h := vote_to_lynch_validation demoFresh demoC3msg (by decide)
  have h1 : (vote_to_lynch demoFresh demoC3msg).2.2 =
      VoteOutcome.notInGame := h.1.mpr (by decide)
  refine ⟨h1, ?_⟩
  have h2 := h.2.2.2.2.2 (by rw [h1]; decide)
  exact h2.1

/- ------------------------------------------------------------------ -/
/- C2: kill_player and the players/alive aliasing.                     -/
/- ------------------------------------------------------------------ -/

/-- A two-player game built through the real entry points: init_game, two
add_player calls, then give_roles (round(2/4) = 0, so the sample is empty).
give_roles leaves self.alive and self.players bound to the same list
object. -/
def demoC2 : MafiaGame :=
  (give_roles (add_player (add_player (init_game MafiaGame.new) uA) uB) []).1

/-- C2 (code bug): kill_player is documented to remove the player from the
alive list "but not from the game", and the spec says the roster record
persists; but because give_roles executes self.alive = self.players (one
shared list object), alive.remove(player) also deletes the player from
self.players.  Evaluated on the concrete two-player game: killing player 0
does set is_alive = false and removes it from alive, yet the roster no
longer contains it either. -/
theorem kill_player_removes_from_roster_bug :
    playersL demoC2 = [0, 1] ∧
    aliveL demoC2 = [0, 1] ∧
    (pread (kill_player demoC2 0) 0).is_alive = false ∧
    0 ∉ aliveL (kill_player demoC2 0) ∧
    0 ∉ playersL (kill_player demoC2 0) := by
  decide

/- ------------------------------------------------------------------ -/
/- Projection lemmas for give_roles.                                   -/
/- ------------------------------------------------------------------ -/

theorem give_roles_mafia (g : MafiaGame) (mafias : List PlayerId) :
    (give_roles g mafias).1.mafia = mafias := rfl

theorem give_roles_townies (g : MafiaGame) (mafias : List PlayerId) :
    (give_roles g mafias).1.townies =
      (playersL g).filter (fun p => ¬ mafias.contains p) := rfl

theorem give_roles_players (g : MafiaGame) (mafias : List PlayerId) :
    playersL (give_roles g mafias).1 = playersL g := rfl

theorem give_roles_alive (g : MafiaGame) (mafias : List PlayerId) :
    aliveL (give_roles g mafias).1 = playersL g := rfl

theorem give_roles_len (g : MafiaGame) (mafias : List PlayerId) :
    (give_roles g mafias).1.pheap.length = g.pheap.length := by
  show (mapHeapIdx g.pheap _ 0).length = g.pheap.length
  exact mapHeapIdx_length g.pheap _ 0

theorem give_roles_pread (g : MafiaGame) (mafias : List PlayerId) (p : Nat)
    (hp : p < g.pheap.length) :
    pread (give_roles g mafias).1 p =
      (if mafias.contains p then { pread g p with role := some "Mafia " }
       else if ((playersL g).filter
           (fun q => ¬ mafias.contains q)).contains p then
         { pread g p with role := some "Townie" }
       else pread g p) := by
  show hread (mapHeapIdx g.pheap (fun i p2 =>
      if mafias.contains i then { p2 with role := some "Mafia " }
      else if ((playersL g).filter
          (fun q => ¬ mafias.contains q)).contains i then
        { p2 with role := some "Townie" }
      else p2) 0) p = _
  rw [hread_mapHeapIdx _ _ 0 p hp]
  simp [pread]

theorem give_roles_uid (g : MafiaGame) (mafias : List PlayerId) (q : Nat) :
    (pread (give_roles g mafias).1 q).uid = (pread g q).uid := by
  by_cases hq : q < g.pheap.length
  · rw [give_roles_pread g mafias q hq]
    split
    · rfl
    · split <;> rfl
  · unfold pread
    rw [hread_ge g.pheap q (Nat.le_of_not_lt hq),
      hread_ge _ q (by
        rw [show ((give_roles g mafias).1.pheap.length = g.pheap.length)
          from give_roles_len g mafias]
        exact Nat.le_of_not_lt hq)]

theorem give_roles_u2p_eq (g : MafiaGame) (mafias : List PlayerId) :
    (give_roles g mafias).1.user_to_player =
      (playersL g).map (fun p => ((pread g p).uid, p)) := by
  show (playersL g).map
    (fun p => ((pread (give_roles g mafias).1 p).uid, p)) = _
  refine List.map_congr_left ?_
  intro a ha
  simp [give_roles_uid]

theorem lookup_map_uid (l : List PlayerId) (f : PlayerId → Nat)
    (hinj : ∀ p ∈ l, ∀ q ∈ l, f p = f q → p = q) (p : PlayerId)
    (hp : p ∈ l) :
    (l.map (fun q => (f q, q))).lookup (f p) = some p := by
  induction l with
  | nil => cases hp
  | cons x xs ih =>
    rw [List.map_cons, lookup_cons]
    by_cases hfx : f p = f x
    · rw [if_pos hfx]
      have hpx : p = x := hinj p hp x (by simp) hfx
      rw [hpx]
    · rw [if_neg hfx]
      have hpxs : p ∈ xs := by
        rcases List.mem_cons.mp hp with h | h
        · exact absurd (by rw [h]) hfx
        · exact h
      exact ih (fun a ha b hb =>
        hinj a (by simp [ha]) b (by simp [hb])) hpxs

theorem filter_not_contains_length (l ms : List Nat) (hnd : l.Nodup)
    (hmnd : ms.Nodup) (hsub : ∀ p ∈ ms, p ∈ l) :
    (l.filter (fun p => ¬ ms.contains p)).length = l.length - ms.length := by
  have hfn : (l.filter (fun p => ¬ ms.contains p)).Nodup := hnd.filter _
  have h1 : (l.filter (fun p => ¬ ms.contains p)).toFinset =
      l.toFinset \ ms.toFinset := by
    ext a
    simp [List.mem_filter]
  calc (l.filter (fun p => ¬ ms.contains p)).length
      = (l.filter (fun p => ¬ ms.contains p)).toFinset.card :=
        (List.toFinset_card_of_nodup hfn).symm
    _ = (l.toFinset \ ms.toFinset).card := by rw [h1]
    _ = l.toFinset.card - ms.toFinset.card := Finset.card_sdiff (by
        intro a ha
        rw [List.mem_toFinset] at ha ⊢
        exact hsub a ha)
    _ = l.length - ms.length := by
        rw [List.toFinset_card_of_nodup hnd,
          List.toFinset_card_of_nodup hmnd]

/- ------------------------------------------------------------------ -/
/- C7: role assignment.                                                -/
/- ------------------------------------------------------------------ -/

/-- C7: give_roles, run with a sample satisfying the random.sample
contract (a duplicate-free selection from the roster of size
round(playerCount/4), Python round being half-to-even), makes exactly
those players Mafia, every remaining roster player Town, keeps mafia and
townies disjoint with union the full roster, leaves alive the full roster
(alive and players are the same list object afterwards), and builds a
user-to-player lookup that maps every player's uid back to that player. -/
theorem give_roles_split (g : MafiaGame) (mafias : List PlayerId)
    (hnd : (playersL g).Nodup)
    (hmnd : mafias.Nodup)
    (hsub : ∀ p ∈ mafias, p ∈ playersL g)
    (hcnt : mafias.length = pyRound4 (playersL g).length)
    (hbound : ∀ p ∈ playersL g, p < g.pheap.length)
    (hinj : ∀ p ∈ playersL g, ∀ q ∈ playersL g,
      (pread g p).uid = (pread g q).uid → p = q) :
    (give_roles g mafias).1.mafia = mafias ∧
    (give_roles g mafias).1.mafia.length = pyRound4 (playersL g).length ∧
    (∀ p ∈ (give_roles g mafias).1.mafia,
      p ∉ (give_roles g mafias).1.townies) ∧
    (∀ p, p ∈ playersL (give_roles g mafias).1 ↔
      (p ∈ (give_roles g mafias).1.mafia ∨
       p ∈ (give_roles g mafias).1.townies)) ∧
    (give_roles g mafias).1.townies.length =
      (playersL g).length - mafias.length ∧
    aliveL (give_roles g mafias).1 = playersL (give_roles g mafias).1 ∧
    (∀ p ∈ (give_roles g mafias).1.mafia,
      (pread (give_roles g mafias).1 p).role = some "Mafia ") ∧
    (∀ p ∈ (give_roles g mafias).1.townies,
      (pread (give_roles g mafias).1 p).role = some "Townie") ∧
    (∀ p ∈ playersL (give_roles g mafias).1,
      (give_roles g mafias).1.user_to_player.lookup
        (pread (give_roles g mafias).1 p).uid = some p) := by
  refine ⟨give_roles_mafia g mafias, ?_, ?_, ?_, ?_, ?_, ?_, ?_, ?_⟩
  · rw [give_roles_mafia]
    exact hcnt
  · intro p hp
    rw [give_roles_mafia] at hp
    rw [give_roles_townies]
    simp [hp]
  · intro p
    rw [give_roles_mafia, give_roles_townies, give_roles_players]
    constructor
    · intro hp
      by_cases hm : p ∈ mafias
      · exact Or.inl hm
      · refine Or.inr ?_
        simp [List.mem_filter, hp, hm]
    · intro hp
      rcases hp with hp | hp
      · exact hsub p hp
      · exact (List.mem_filter.mp hp).1
  · rw [give_roles_townies]
    exact filter_not_contains_length (playersL g) mafias hnd hmnd hsub
  · rw [give_roles_alive, give_roles_players]
  · intro p hp
    rw [give_roles_mafia] at hp
    rw [give_roles_pread g mafias p (hbound p (hsub p hp))]
    simp [hp]
  · intro p hp
    rw [give_roles_townies] at hp
    have hpl : p ∈ playersL g := (List.mem_filter.mp hp).1
    have hnm : p ∉ mafias := by
      have := (List.mem_filter.mp hp).2
      simpa using this
    rw [give_roles_pread g mafias p (hbound p hpl)]
    have hc1 : mafias.contains p = false := by
      simp [hnm]
    have hc2 : ((playersL g).filter
        (fun q => ¬ mafias.contains q)).contains p = true := by
      simp [List.mem_filter, hpl, hnm]
    rw [hc1]
    simp [hc2, hpl, hnm]
  · intro p hp
    rw [give_roles_players] at hp
    rw [give_roles_uid, give_roles_u2p_eq]
    exact lookup_map_uid (playersL g) (fun q => (pread g q).uid) hinj p hp

/-- Eight players joining through add_player after init_game. -/
def demoC7 : MafiaGame :=
  [(⟨20, "p0"⟩ : DUser), ⟨21, "p1"⟩, ⟨22, "p2"⟩, ⟨23, "p3"⟩, ⟨24, "p4"⟩,
    ⟨25, "p5"⟩, ⟨26, "p6"⟩, ⟨27, "p7"⟩].foldl add_player
    (init_game MafiaGame.new)

theorem give_roles_split_witness :
    (give_roles demoC7 [0, 3]).1.mafia.length =
      pyRound4 (playersL demoC7).length ∧
    (give_roles demoC7 [0, 3]).1.townies.length =
      (playersL demoC7).length - [0, 3].length ∧
    aliveL (give_roles demoC7 [0, 3]).1 =
      playersL (give_roles demoC7 [0, 3]).1 := by
  have h := give_roles_split demoC7 [0, 3] (by decide) (by decide)
    (by decide) (by decide) (by decide) (by decide)
  exact ⟨h.2.1, h.2.2.2.2.1, h.2.2.2.2.2.1⟩

/- ------------------------------------------------------------------ -/
/- C8: role and ally notifications.                                    -/
/- ------------------------------------------------------------------ -/

def demoC8 : MafiaGame := { demoC7 with gen_channel := some 5 }

/-- C8 (code bug): the full event trace of give_roles on the eight-player
game with mafia sample [players 0 and 3].  Every player does receive a
private message naming their role, addressed to their own user; but both
"Your allies are ..." messages are sent to self.gen_channel - the public
channel - rather than to the mafia members, because line 283 passes
self.gen_channel to send_message. -/
theorem mafia_allies_channel_bug :
    (give_roles demoC8 [0, 3]).2 =
      [Event.msg (Dest.channel (some 5)) "Assigning roles to players.",
       Event.msg (Dest.channel (some 5)) "PM-ing roles to players.",
       Event.msg (Dest.user 20) "You are a Mafia .",
       Event.msg (Dest.user 21) "You are a Townie.",
       Event.msg (Dest.user 22) "You are a Townie.",
       Event.msg (Dest.user 23) "You are a Mafia .",
       Event.msg (Dest.user 24) "You are a Townie.",
       Event.msg (Dest.user 25) "You are a Townie.",
       Event.msg (Dest.user 26) "You are a Townie.",
       Event.msg (Dest.user 27) "You are a Townie.",
       Event.msg (Dest.channel (some 5)) "Your allies are p3",
       Event.msg (Dest.channel (some 5)) "Your allies are p0"] := by
  decide

/- ------------------------------------------------------------------ -/
/- C10: the announced join window versus the actual wait.              -/
/- ------------------------------------------------------------------ -/

theorem add_player_timeout (g : MafiaGame) (u : DUser) :
    (add_player g u).timeout = g.timeout := rfl

theorem foldl_add_player_timeout (us : List DUser) (g : MafiaGame) :
    (us.foldl add_player g).timeout = g.timeout := by
  induction us generalizing g with
  | nil => rfl
  | cons u us2 ih => rw [List.foldl_cons, ih, add_player_timeout]

/-- C10: start_new_game formats and sends the opening announcement with
the timeout value held before the start message's timeout argument is
parsed (the stored value), and only afterwards parses args[1] and sleeps
for the freshly parsed value; so when the message carries a numeric
timeout argument different from the stored timeout, the announced duration
differs from the duration actually waited. -/
theorem start_announced_vs_waited (g : MafiaGame) (m : Msg)
    (mafias : List PlayerId) (t1 : Int)
    (hoff : g.is_ongoing = false)
    (hargs : m.content_args.length > 1)
    (hparse : pyInt? (m.content_args.getD 1 "") = some t1)
    (hne : t1 ≠ g.timeout) :
    (start_new_game g m mafias).2.take 2 =
      [Event.msg (Dest.channel m.channel) (openingText g.timeout),
       Event.sleep t1] ∧
    t1 ≠ g.timeout := by
  refine ⟨?_, hne⟩
  unfold start_new_game
  rw [hoff]
  simp only [Bool.false_eq_true, if_false, ite_false, reduceIte]
  rw [if_pos hargs, foldl_add_player_timeout]
  simp only [List.getD, List.get?_eq_getElem?] at hparse
  simp [parseIntOr0, hparse, init_game]

def demoC10msg : Msg := ⟨⟨50, "host"⟩, ["!mafia", "25"], [], some 7⟩

theorem start_announced_vs_waited_witness :
    (start_new_game MafiaGame.new demoC10msg []).2.take 2 =
      [Event.msg (Dest.channel (some 7)) (openingText 10),
       Event.sleep 25] := by
  have h := start_announced_vs_waited MafiaGame.new demoC10msg [] 25
    (by decide) (by decide) (by decide) (by decide)
  exact h.1

end BakaBot
